import Mathlib

/-!
# The .NET script loader of ImHex (`dotnet_loader.cpp`)

A shallow embedding of `plugins/script_loader/source/loaders/dotnet/dotnet_loader.cpp`
and the properties of its bootstrap, dispatch protocol and script discovery.

Conventions of the embedding

* `std::string` is `String` (the text is taken to be valid UTF-8); `.size()` is the
  UTF-8 byte count `String.utf8ByteSize`, narrowed to `int32_t` where it is passed
  to the bridge entry point.
* `std::fs::path` is a `String` in generic format (separator `/`).
* Native pointers are natural numbers, `nullptr` is `0`.
* The dynamic loader, the hosting API, the bridge and the file system are
  external: their answers are fields of an environment record, and every call
  the code makes to them is appended to a trace of events.
* A call through a null function pointer, which C++ leaves undefined, is the
  outcome `fault`; a C++ exception is the outcome `raised`.
* Calls to the logging sink (`log::error`) have no effect on control flow and
  are left out.
-/

namespace hex.script.loader

/-! ## Pointers, outcomes -/

/-- A native address (module handle, context handle, function pointer). -/
abbrev Ptr := Nat

/-- The null pointer. -/
abbrev nullptr : Ptr := 0

/-- Conversion of a signed 32-bit status to `u32`, as in `u32 result = f(...)`. -/
def toU32 (status : Int) : Nat := (status % 4294967296).toNat

/-- Conversion of a `size_t` byte count to the `int32_t` length parameter of
`component_entry_point_fn` (declared in `coreclr_delegates.h` as
`int (*)(void *arg, int32_t arg_size_in_bytes)`): the count modulo 2^32, read as a
signed 32-bit number. -/
def toI32 (n : Nat) : Int := (((n + 2147483648) % 4294967296 : Nat) : Int) - 2147483648

/-- The length argument of the call `entryPoint(string.data(), string.size())`. -/
def sizeArgument (string : String) : Int := toI32 string.utf8ByteSize

/-- How a C++ function body ends. -/
inductive Outcome (α : Type) where
  /-- normal return with a value -/
  | returned (value : α)
  /-- an exception leaves the function; `what` is its message -/
  | raised (what : String)
  /-- a call through a null function pointer -/
  | fault
  deriving DecidableEq, Repr

/-! ## Strings and paths -/

/-- A `std::fs::path` in generic format. -/
abbrev Path := String

/-- Model of `wolv::util::toUTF8String(path)`: the path text as UTF-8. -/
def toUTF8String (path : Path) : String := path

/-- Model of `path / component` for a non-empty relative `component`
(the only use in the source): a separator is inserted unless the left side
is empty or already ends in one. -/
def Path.join (path : Path) (component : String) : Path :=
  if path.data = [] ∨ path.data.getLast? = some '/' then path ++ component
  else path ++ "/" ++ component

/-- Characters after the last `/`: `path::filename()`. -/
def filenameChars (cs : List Char) : List Char :=
  (cs.reverse.takeWhile (fun c => c != '/')).reverse

/-- The characters before the last `.` of a list, when it has a `.`. -/
def beforeLastDot : List Char → Option (List Char)
  | [] => none
  | c :: cs =>
    match beforeLastDot cs with
    | some r => some (c :: r)
    | none => if c = '.' then some [] else none

/-- Stem of a file name, `path::stem()` of the C++ standard: the name up to
its last period; a leading period is not an extension separator, and `.`,
`..` and names without a period are returned whole. -/
def stemChars (name : List Char) : List Char :=
  if name = ['.'] ∨ name = ['.', '.'] then name
  else
    match name with
    | [] => []
    | c :: rest =>
      match beforeLastDot rest with
      | some r => c :: r
      | none => name

/-- Model of `path.filename()`. -/
def Path.filename (path : Path) : String := String.mk (filenameChars path.data)

/-- Model of `path.stem()`. -/
def Path.stem (path : Path) : String := String.mk (stemChars (filenameChars path.data))

/-! ## Dispatch protocol: the wire strings built by the two lambdas -/

/-- The string built in the `m_runMethod` lambda:
`hex::format("{}||{}||{}", keepLoaded ? "LOAD" : "EXEC", methodName, pathString)`. -/
def runMethodString (methodName : String) (keepLoaded : Bool) (pathString : String) : String :=
  (if keepLoaded then "LOAD" else "EXEC") ++ "||" ++ methodName ++ "||" ++ pathString

/-- The string built in the `m_methodExists` lambda:
`hex::format("CHECK||{}||{}", methodName, pathString)`. -/
def methodExistsString (methodName : String) (pathString : String) : String :=
  "CHECK||" ++ methodName ++ "||" ++ pathString

/-- The verb of a DispatchRequest. -/
inductive Verb where
  | CHECK
  | LOAD
  | EXEC
  deriving DecidableEq, Repr

/-- The verb token on the wire. -/
def Verb.token : Verb → String
  | .CHECK => "CHECK"
  | .LOAD => "LOAD"
  | .EXEC => "EXEC"

/-- The wire string the source builds for a request with the given verb:
the `m_methodExists` string for `CHECK`, the `m_runMethod` string with
`keepLoaded = true` for `LOAD` and with `keepLoaded = false` for `EXEC`. -/
def encode (verb : Verb) (methodName pathString : String) : String :=
  match verb with
  | .CHECK => methodExistsString methodName pathString
  | .LOAD => runMethodString methodName true pathString
  | .EXEC => runMethodString methodName false pathString

/-- Whether a character list contains two adjacent `|`. -/
def containsDelimiterChars : List Char → Bool
  | [] => false
  | [_] => false
  | c :: d :: rest => (c == '|' && d == '|') || containsDelimiterChars (d :: rest)

/-- Whether a string contains the delimiter `||`. -/
def containsDelimiter (s : String) : Bool := containsDelimiterChars s.data

/-- Whether a string ends in the character `|`. -/
def endsInBar (s : String) : Bool := s.data.getLast? == some '|'

/-- Split a character list at every occurrence of `||`, scanning from the
left, occurrences not overlapping. -/
def splitDelimiter : List Char → List (List Char)
  | [] => [[]]
  | [c] => [[c]]
  | c :: d :: rest =>
    if c = '|' ∧ d = '|' then [] :: splitDelimiter rest
    else
      match splitDelimiter (d :: rest) with
      | [] => [[c]]
      | f :: fs => (c :: f) :: fs

/-- Reading of a verb token. -/
def Verb.ofToken (s : String) : Option Verb :=
  if s = "CHECK" then some .CHECK
  else if s = "LOAD" then some .LOAD
  else if s = "EXEC" then some .EXEC
  else none

/-- Modelled from the spec: the decoder of the DispatchRequest wire form,
which lives in the bridge module and is not part of the source file. The
wire string is split at the delimiter `||`; a request is recognised when the
split gives exactly a verb token, a method name and a path. -/
def decode (wire : String) : Option (Verb × String × String) :=
  match splitDelimiter wire.data with
  | [v, m, p] => (Verb.ofToken (String.mk v)).map (fun verb => (verb, String.mk m, String.mk p))
  | _ => none


/-! ## Events, the host environment, the hosting function table -/

/-- One call the code makes to native code outside itself, with what came back. -/
inductive Event where
  /-- `getExport(module, symbol)` and the address it returned -/
  | getExport (module : Ptr) (symbol : String) (result : Ptr)
  /-- the call through `get_hostfxr_path_ptr`: status and buffer contents -/
  | get_hostfxr_path (status : Int) (buffer : String)
  /-- the call `hostfxr_set_error_writer(writer)` -/
  | hostfxr_set_error_writer
  /-- the call `hostfxr_initialize_for_runtime_config(path, nullptr, &ctx)` -/
  | hostfxr_initialize_for_runtime_config (path : Path) (status : Int) (ctx : Ptr)
  /-- the call `hostfxr_set_runtime_property_value(ctx, name, value)` -/
  | hostfxr_set_runtime_property_value (ctx : Ptr) (name value : String)
  /-- the call `hostfxr_get_runtime_delegate(ctx, hdt_load_assembly_and_get_function_pointer, &fn)` -/
  | hostfxr_get_runtime_delegate (ctx : Ptr) (status : Int) (delegate : Ptr)
  /-- the call `hostfxr_close(ctx)` -/
  | hostfxr_close (ctx : Ptr)
  /-- the call `loadAssembly(assemblyPath, typeName, methodName, nullptr, nullptr, &entryPoint)` -/
  | loadAssembly (delegate : Ptr) (assemblyPath typeName methodName : String)
      (status : Int) (entryPoint : Ptr)
  /-- the call `entryPoint(string.data(), string.size())` into the bridge -/
  | entryPoint (fn : Ptr) (data : String) (size : Int) (status : Int)
  deriving DecidableEq, Repr

/-- The build platform (`OS_WINDOWS`, `OS_LINUX`, `OS_MACOS`). -/
inductive Platform where
  | windows
  | linux
  | macos
  deriving DecidableEq, Repr

/-- What the process environment answers during bootstrap: the dynamic loader,
the host application's helpers and the hosting API. -/
structure Host where
  /-- the platform the code was built for -/
  platform : Platform
  /-- `fs::getDefaultPaths(fs::ImHexPath::Plugins)` -/
  pluginPaths : List Path
  /-- `loadLibrary(name)`, `nullptr` when the library cannot be loaded -/
  loadLibrary : String → Ptr
  /-- `getExport(module, symbol)`, `nullptr` when the symbol is missing -/
  getExport : Ptr → String → Ptr
  /-- `ImHexApi::System::getLibImHexModuleHandle()` -/
  libImHexModuleHandle : Ptr
  /-- `hex::getContainingModule(address)` -/
  getContainingModule : Ptr → Ptr
  /-- the address of `pInvokeOverride` -/
  pInvokeOverrideAddress : Ptr
  /-- `wolv::io::fs::exists(path)` -/
  fileExists : Path → Bool
  /-- `std::fs::absolute(path)` -/
  absolute : Path → Path
  /-- what `get_hostfxr_path` returns and writes to the buffer -/
  get_hostfxr_path : Int × String
  /-- what `hostfxr_initialize_for_runtime_config` returns and writes to `ctx` -/
  hostfxr_initialize_for_runtime_config : Path → Int × Ptr
  /-- what `hostfxr_get_runtime_delegate` returns and writes to the delegate -/
  hostfxr_get_runtime_delegate : Ptr → Int × Ptr
  /-- what the delegate returns and writes to the entry point, by assembly path -/
  load_assembly_and_get_function_pointer : Ptr → String → Int × Ptr

/-- The five file-scope function pointers of the source. -/
structure HostingFunctionTable where
  hostfxr_initialize_for_runtime_config : Ptr
  hostfxr_get_runtime_delegate : Ptr
  hostfxr_close : Ptr
  hostfxr_set_runtime_property_value : Ptr
  hostfxr_set_error_writer : Ptr
  deriving DecidableEq, Repr

/-- The table before `loadHostfxr` ran: every pointer is `nullptr`. -/
def HostingFunctionTable.initial : HostingFunctionTable := ⟨nullptr, nullptr, nullptr, nullptr, nullptr⟩

/-- All five entries are resolved. -/
def HostingFunctionTable.complete (t : HostingFunctionTable) : Bool :=
  t.hostfxr_initialize_for_runtime_config != nullptr &&
  t.hostfxr_get_runtime_delegate != nullptr &&
  t.hostfxr_close != nullptr &&
  t.hostfxr_set_runtime_property_value != nullptr &&
  t.hostfxr_set_error_writer != nullptr

/-! ## `pInvokeOverride` -/

/-- Embedding of `pInvokeOverride(libraryName, symbolName)`: the address returned
and the export lookups made. -/
def pInvokeOverride (host : Host) (libraryName symbolName : String) : Ptr × List Event :=
  let library := libraryName
  if library = "cimgui" then
    let module := host.libImHexModuleHandle
    (host.getExport module symbolName, [Event.getExport module symbolName (host.getExport module symbolName)])
  else if library = "ImHex" then
    let module := host.getContainingModule host.pInvokeOverrideAddress
    (host.getExport module symbolName, [Event.getExport module symbolName (host.getExport module symbolName)])
  else
    (nullptr, [])

/-! ## `loadHostfxr` -/

/-- Directory part of a path, `path::parent_path()`. -/
def parentPathChars (cs : List Char) : List Char :=
  let dir := cs.reverse.dropWhile (fun c => c != '/')
  let trimmed := dir.dropWhile (fun c => c == '/')
  if trimmed = [] then (if dir = [] then [] else ['/']) else trimmed.reverse

/-- Model of `path.parent_path()`. -/
def Path.parent_path (path : Path) : Path := String.mk (parentPathChars path.data)

/-- The macOS search of `loadHostfxr`: the first plugin path whose sibling
`Frameworks` directory gives a loadable `libnethost.dylib`. -/
def loadHostfxr.searchFrameworks (host : Host) : List Path → Ptr
  | [] => nullptr
  | pluginPath :: rest =>
    let frameworksPath := Path.join (Path.parent_path (Path.parent_path pluginPath)) "Frameworks"
    let netHostLibrary := host.loadLibrary (Path.join frameworksPath "libnethost.dylib")
    if netHostLibrary != nullptr then netHostLibrary
    else loadHostfxr.searchFrameworks host rest

/-- The platform-dependent first step of `loadHostfxr`. -/
def loadHostfxr.netHostLibrary (host : Host) : Ptr :=
  match host.platform with
  | .windows => host.loadLibrary "nethost.dll"
  | .linux => host.loadLibrary "libnethost.so"
  | .macos => loadHostfxr.searchFrameworks host host.pluginPaths

/-- Result of `loadHostfxr`: how it ended, the function table it left, its calls. -/
structure HostfxrRun where
  outcome : Outcome Bool
  table : HostingFunctionTable
  trace : List Event
  deriving DecidableEq, Repr

/-- Embedding of `loadHostfxr()`, started with the table `table`. -/
def loadHostfxr (host : Host) (table : HostingFunctionTable) : HostfxrRun :=
  let netHostLibrary := loadHostfxr.netHostLibrary host
  if netHostLibrary = nullptr then
    ⟨.returned false, table, []⟩
  else
    let get_hostfxr_path_ptr := host.getExport netHostLibrary "get_hostfxr_path"
    let t1 := [Event.getExport netHostLibrary "get_hostfxr_path" get_hostfxr_path_ptr]
    if get_hostfxr_path_ptr = nullptr then
      ⟨.fault, table, t1⟩
    else
      let result := host.get_hostfxr_path.1
      let buffer := host.get_hostfxr_path.2
      let t2 := t1 ++ [Event.get_hostfxr_path result buffer]
      if result ≠ 0 then
        ⟨.returned false, table, t2⟩
      else
        let hostfxrLibrary := host.loadLibrary buffer
        if hostfxrLibrary = nullptr then
          ⟨.returned false, table, t2⟩
        else
          let lookup := fun symbol => host.getExport hostfxrLibrary symbol
          let resolved : HostingFunctionTable :=
            { hostfxr_initialize_for_runtime_config := lookup "hostfxr_initialize_for_runtime_config"
              hostfxr_get_runtime_delegate := lookup "hostfxr_get_runtime_delegate"
              hostfxr_close := lookup "hostfxr_close"
              hostfxr_set_runtime_property_value := lookup "hostfxr_set_runtime_property_value"
              hostfxr_set_error_writer := lookup "hostfxr_set_error_writer" }
          let t3 := t2 ++
            [ Event.getExport hostfxrLibrary "hostfxr_initialize_for_runtime_config"
                resolved.hostfxr_initialize_for_runtime_config,
              Event.getExport hostfxrLibrary "hostfxr_get_runtime_delegate"
                resolved.hostfxr_get_runtime_delegate,
              Event.getExport hostfxrLibrary "hostfxr_close" resolved.hostfxr_close,
              Event.getExport hostfxrLibrary "hostfxr_set_runtime_property_value"
                resolved.hostfxr_set_runtime_property_value,
              Event.getExport hostfxrLibrary "hostfxr_set_error_writer"
                resolved.hostfxr_set_error_writer ]
          -- line 103: the call precedes the null checks of the return expression
          if resolved.hostfxr_set_error_writer = nullptr then
            ⟨.fault, resolved, t3⟩
          else
            ⟨.returned resolved.complete, resolved, t3 ++ [Event.hostfxr_set_error_writer]⟩

/-! ## `getLoadAssemblyFunction` -/

/-- Model of `hex::format("{:X}", n)`: upper-case hexadecimal. -/
def formatHexUpper (n : Nat) : String := String.mk ((Nat.toDigits 16 n).map Char.toUpper)

/-- Model of `hex::format("{}", (void*)p)`: `0x` and lower-case hexadecimal. -/
def formatPointer (p : Ptr) : String := "0x" ++ String.mk (Nat.toDigits 16 p)

/-- Result of `getLoadAssemblyFunction`: how it ended and its calls. -/
structure DelegateRun where
  outcome : Outcome Ptr
  trace : List Event
  deriving DecidableEq, Repr

/-- The statements of `getLoadAssemblyFunction` after the scope guard is set:
lines 129 to 149. `result` and `ctx` come from the initialize-context call,
`t1` is the trace so far. -/
def getLoadAssemblyFunction.guarded (host : Host) (table : HostingFunctionTable)
    (ctx : Ptr) (result : Nat) (t1 : List Event) : DelegateRun :=
  if result > 2 ∨ ctx = nullptr then
    ⟨.raised ("Failed to initialize command line 0x" ++ formatHexUpper result), t1⟩
  else if table.hostfxr_set_runtime_property_value = nullptr then
    ⟨.fault, t1⟩
  else
    let t2 := t1 ++ [Event.hostfxr_set_runtime_property_value ctx "PINVOKE_OVERRIDE"
      (formatPointer host.pInvokeOverrideAddress)]
    if table.hostfxr_get_runtime_delegate = nullptr then
      ⟨.fault, t2⟩
    else
      let status := (host.hostfxr_get_runtime_delegate ctx).1
      let loadAssemblyFunction := (host.hostfxr_get_runtime_delegate ctx).2
      let result := toU32 status
      let t3 := t2 ++ [Event.hostfxr_get_runtime_delegate ctx status loadAssemblyFunction]
      if result ≠ 0 ∨ loadAssemblyFunction = nullptr then
        ⟨.raised ("Failed to get load_assembly_and_get_function_pointer delegate 0x"
          ++ formatHexUpper result), t3⟩
      else
        ⟨.returned loadAssemblyFunction, t3⟩

/-- Model of `ON_SCOPE_EXIT { hostfxr_close(ctx); }`: when the guarded statements
end by a return or by an exception, `hostfxr_close(ctx)` is called. -/
def getLoadAssemblyFunction.onScopeExit (table : HostingFunctionTable) (ctx : Ptr)
    (r : DelegateRun) : DelegateRun :=
  match r.outcome with
  | .fault => r
  | _ =>
    if table.hostfxr_close = nullptr then ⟨.fault, r.trace⟩
    else ⟨r.outcome, r.trace ++ [Event.hostfxr_close ctx]⟩

/-- Embedding of `getLoadAssemblyFunction(path)`. -/
def getLoadAssemblyFunction (host : Host) (table : HostingFunctionTable) (path : Path) :
    DelegateRun :=
  if table.hostfxr_initialize_for_runtime_config = nullptr then
    ⟨.fault, []⟩
  else
    let status := (host.hostfxr_initialize_for_runtime_config path).1
    let ctx := (host.hostfxr_initialize_for_runtime_config path).2
    let result := toU32 status
    let t1 := [Event.hostfxr_initialize_for_runtime_config path status ctx]
    getLoadAssemblyFunction.onScopeExit table ctx
      (getLoadAssemblyFunction.guarded host table ctx result t1)

/-! ## The loader object -/

/-- The two closures `loadAll` registers as run actions. -/
inductive RunAction where
  /-- `[this, scriptPath] { hex::unused(m_runMethod("Main", false, scriptPath)); }` -/
  | runMain (scriptPath : Path)
  /-- `[] {}` -/
  | noop
  deriving DecidableEq, Repr

/-- Modelled from the spec: the ScriptDescriptor of the host's script registry
(declared in the base class header, which is not part of the source file):
a name, the flag requiresPersistentLoad and a zero-argument run action, in
the order of the arguments of `addScript`. -/
structure Script where
  name : String
  requiresPersistentLoad : Bool
  runAction : RunAction
  deriving DecidableEq, Repr

/-- The members of `DotNetLoader`. A `std::function` member is `none` while
empty and `some entryPoint` once it holds the lambda that captured `entryPoint`. -/
structure DotNetLoader where
  m_assemblyLoaderPathString : String
  m_runMethod : Option Ptr
  m_methodExists : Option Ptr
  /-- the script registry of the base class -/
  scripts : List Script
  deriving DecidableEq, Repr

/-- A freshly constructed loader. -/
def DotNetLoader.fresh : DotNetLoader := ⟨"", none, none, []⟩

/-- Modelled from the spec: `clearScripts()` of the base class, which
"clears the existing ScriptDescriptor registry". -/
def DotNetLoader.clearScripts (self : DotNetLoader) : DotNetLoader :=
  { self with scripts := [] }

/-- Modelled from the spec: `addScript(name, requiresPersistentLoad, runAction)`
of the base class, which registers a ScriptDescriptor at the end of the registry. -/
def DotNetLoader.addScript (self : DotNetLoader) (name : String)
    (requiresPersistentLoad : Bool) (runAction : RunAction) : DotNetLoader :=
  { self with scripts := self.scripts ++ [⟨name, requiresPersistentLoad, runAction⟩] }

/-! ## `DotNetLoader::initialize` -/

/-- Result of `initialize`: how it ended, the loader, the function table, the calls. -/
structure InitializeRun where
  outcome : Outcome Bool
  loader : DotNetLoader
  table : HostingFunctionTable
  trace : List Event
  deriving DecidableEq, Repr

/-- The loop of `initialize` over the plugin paths, lines 160 to 208. -/
def DotNetLoader.initialize.loop (host : Host) (table : HostingFunctionTable) :
    List Path → DotNetLoader → List Event → InitializeRun
  | [], self, t => ⟨.returned false, self, table, t⟩
  | path :: rest, self, t =>
    let assemblyLoader := Path.join path "AssemblyLoader.dll"
    if !host.fileExists assemblyLoader then
      DotNetLoader.initialize.loop host table rest self t
    else
      let r := getLoadAssemblyFunction host table
        (Path.join (host.absolute path) "AssemblyLoader.runtimeconfig.json")
      match r.outcome with
      | .fault => ⟨.fault, self, table, t ++ r.trace⟩
      | .raised what => ⟨.raised what, self, table, t ++ r.trace⟩
      | .returned loadAssembly =>
        let dotnetType := "ImHex.EntryPoint, AssemblyLoader"
        let dotnetTypeMethod := "ExecuteScript"
        let self1 := { self with m_assemblyLoaderPathString := assemblyLoader }
        let status := (host.load_assembly_and_get_function_pointer loadAssembly
          self1.m_assemblyLoaderPathString).1
        let entryPoint := (host.load_assembly_and_get_function_pointer loadAssembly
          self1.m_assemblyLoaderPathString).2
        let result := toU32 status
        let t1 := t ++ r.trace ++ [Event.loadAssembly loadAssembly
          self1.m_assemblyLoaderPathString dotnetType dotnetTypeMethod status entryPoint]
        if result ≠ 0 ∨ entryPoint = nullptr then
          DotNetLoader.initialize.loop host table rest self1 t1
        else
          ⟨.returned true,
            { self1 with m_runMethod := some entryPoint, m_methodExists := some entryPoint },
            table, t1⟩

/-- Embedding of `DotNetLoader::initialize()`, started with the function table `table`. -/
def DotNetLoader.initialize (host : Host) (table : HostingFunctionTable)
    (self : DotNetLoader) : InitializeRun :=
  let h := loadHostfxr host table
  match h.outcome with
  | .fault => ⟨.fault, self, h.table, h.trace⟩
  | .raised what => ⟨.raised what, self, h.table, h.trace⟩
  | .returned ok =>
    if !ok then ⟨.returned false, self, h.table, h.trace⟩
    else DotNetLoader.initialize.loop host h.table host.pluginPaths self h.trace

/-! ## The bridge and the two lambdas -/

/-- The bridge module behind the entry point: given the function pointer
called, its own state and the request `(data, size)`, the status it returns
and its next state. -/
structure Bridge (σ : Type) where
  entryPoint : Ptr → σ → String → Int → Int × σ

/-- One entry of a script directory listing. -/
structure DirEntry where
  /-- the name of the entry inside the listed directory -/
  filename : String
  is_directory : Bool
  /-- the names of what the entry directly contains, when it is a directory -/
  children : List String
  deriving DecidableEq, Repr

/-- The state of the directory `<root>/custom/dotnet`. -/
inductive DirState where
  /-- it does not exist; `creatable` says whether `createDirectories` makes it exist -/
  | absent (creatable : Bool)
  /-- it exists and lists these entries, in the order `directory_iterator` gives them -/
  | present (entries : List DirEntry)
  deriving DecidableEq, Repr

/-- One path of `fs::getDefaultPaths(fs::ImHexPath::Scripts)` with its
`custom/dotnet` directory. -/
structure ScriptRoot where
  imhexPath : Path
  dotnet : DirState
  deriving DecidableEq, Repr

/-- The state `loadAll` and the run actions work on. -/
structure Machine (σ : Type) where
  loader : DotNetLoader
  /-- the state of the bridge module -/
  bridge : σ
  /-- the calls made so far -/
  trace : List Event

/-- The call `entryPoint(string.data(), string.size())`; the `size_t` length is
converted to the `int32_t` parameter of the entry point. -/
def callEntryPoint {σ : Type} (b : Bridge σ) (entryPoint : Ptr) (st : Machine σ)
    (string : String) : Int × Machine σ :=
  let r := b.entryPoint entryPoint st.bridge string (sizeArgument string)
  (r.1, { st with
    bridge := r.2
    trace := st.trace ++ [Event.entryPoint entryPoint string (sizeArgument string) r.1] })

/-- Body of the lambda stored in `m_runMethod`, lines 187 to 194. -/
def runMethodLambda {σ : Type} (b : Bridge σ) (entryPoint : Ptr) (st : Machine σ)
    (methodName : String) (keepLoaded : Bool) (path : Path) : Int × Machine σ :=
  let pathString := toUTF8String path
  let string := runMethodString methodName keepLoaded pathString
  let result := callEntryPoint b entryPoint st string
  result

/-- Body of the lambda stored in `m_methodExists`, lines 196 to 203. -/
def methodExistsLambda {σ : Type} (b : Bridge σ) (entryPoint : Ptr) (st : Machine σ)
    (methodName : String) (path : Path) : Bool × Machine σ :=
  let pathString := toUTF8String path
  let string := methodExistsString methodName pathString
  let result := callEntryPoint b entryPoint st string
  (decide (result.1 = 0), result.2)

/-- A call `m_runMethod(methodName, keepLoaded, path)` through the member:
an empty `std::function` raises `std::bad_function_call`. -/
def callRunMethod {σ : Type} (b : Bridge σ) (st : Machine σ)
    (methodName : String) (keepLoaded : Bool) (path : Path) : Outcome Int × Machine σ :=
  match st.loader.m_runMethod with
  | none => (.raised "bad_function_call", st)
  | some entryPoint =>
    let r := runMethodLambda b entryPoint st methodName keepLoaded path
    (.returned r.1, r.2)

/-- A call `m_methodExists(methodName, path)` through the member. -/
def callMethodExists {σ : Type} (b : Bridge σ) (st : Machine σ)
    (methodName : String) (path : Path) : Outcome Bool × Machine σ :=
  match st.loader.m_methodExists with
  | none => (.raised "bad_function_call", st)
  | some entryPoint =>
    let r := methodExistsLambda b entryPoint st methodName path
    (.returned r.1, r.2)

/-- Calling a registered run action. The status of `m_runMethod` is discarded
(`hex::unused`). -/
def RunAction.invoke {σ : Type} (b : Bridge σ) (st : Machine σ) :
    RunAction → Outcome Unit × Machine σ
  | .runMain scriptPath =>
    match callRunMethod b st "Main" false scriptPath with
    | (.returned _, st1) => (.returned (), st1)
    | (.raised what, st1) => (.raised what, st1)
    | (.fault, st1) => (.fault, st1)
  | .noop => (.returned (), st)

/-! ## `DotNetLoader::loadAll` -/

/-- The body of the inner loop of `loadAll`, lines 223 to 243, for one
directory entry. -/
def DotNetLoader.loadAll.entry {σ : Type} (b : Bridge σ) (directoryPath : Path)
    (entry : DirEntry) (st : Machine σ) : Outcome Unit × Machine σ :=
  let entryPath := Path.join directoryPath entry.filename
  if !entry.is_directory then (.returned (), st)
  else
    let scriptPath := Path.join entryPath "Main.dll"
    if !entry.children.contains "Main.dll" then (.returned (), st)
    else
      match callMethodExists b st "Main" scriptPath with
      | (.raised what, st1) => (.raised what, st1)
      | (.fault, st1) => (.fault, st1)
      | (.returned hasMain, st1) =>
        match callMethodExists b st1 "OnLoad" scriptPath with
        | (.raised what, st2) => (.raised what, st2)
        | (.fault, st2) => (.fault, st2)
        | (.returned hasOnLoad, st2) =>
          let st3 : Machine σ :=
            if hasMain then
              { st2 with loader :=
                  st2.loader.addScript (Path.stem entryPath) false (.runMain scriptPath) }
            else if hasOnLoad then
              { st2 with loader := st2.loader.addScript (Path.stem entryPath) true .noop }
            else st2
          if hasOnLoad then
            match callRunMethod b st3 "OnLoad" true scriptPath with
            | (.raised what, st4) => (.raised what, st4)
            | (.fault, st4) => (.fault, st4)
            | (.returned _, st4) => (.returned (), st4)
          else (.returned (), st3)

/-- The inner loop of `loadAll` over the entries of one directory. -/
def DotNetLoader.loadAll.entries {σ : Type} (b : Bridge σ) (directoryPath : Path) :
    List DirEntry → Machine σ → Outcome Unit × Machine σ
  | [], st => (.returned (), st)
  | entry :: rest, st =>
    match DotNetLoader.loadAll.entry b directoryPath entry st with
    | (.returned _, st1) => DotNetLoader.loadAll.entries b directoryPath rest st1
    | (.raised what, st1) => (.raised what, st1)
    | (.fault, st1) => (.fault, st1)

/-- The directory `custom/dotnet` of a script root after lines 216 and 217:
an absent directory that can be created is created, empty. -/
def DirState.afterCreate : DirState → DirState
  | .absent true => .present []
  | .absent false => .absent false
  | .present entries => .present entries

/-- The entries the loop of line 222 runs over, none when the directory
still does not exist (line 219). -/
def DirState.listing : DirState → List DirEntry
  | .absent _ => []
  | .present entries => entries

/-- The outer loop of `loadAll` over the script roots, lines 214 to 246.
Returns the script roots as the loop leaves them. -/
def DotNetLoader.loadAll.roots {σ : Type} (b : Bridge σ) :
    List ScriptRoot → Machine σ → Outcome Unit × Machine σ × List ScriptRoot
  | [], st => (.returned (), st, [])
  | root :: rest, st =>
    let directoryPath := Path.join (Path.join root.imhexPath "custom") "dotnet"
    let dotnet := root.dotnet.afterCreate
    let root1 : ScriptRoot := { root with dotnet := dotnet }
    match DotNetLoader.loadAll.entries b directoryPath dotnet.listing st with
    | (.returned _, st1) =>
      match DotNetLoader.loadAll.roots b rest st1 with
      | (o, st2, rest1) => (o, st2, root1 :: rest1)
    | (.raised what, st1) => (.raised what, st1, root1 :: rest)
    | (.fault, st1) => (.fault, st1, root1 :: rest)

/-- Result of `loadAll`. -/
structure LoadAllRun (σ : Type) where
  outcome : Outcome Bool
  machine : Machine σ
  /-- the script roots after the run -/
  roots : List ScriptRoot

/-- Embedding of `DotNetLoader::loadAll()`. -/
def DotNetLoader.loadAll {σ : Type} (b : Bridge σ) (roots : List ScriptRoot)
    (st : Machine σ) : LoadAllRun σ :=
  let st0 : Machine σ := { st with loader := st.loader.clearScripts }
  match DotNetLoader.loadAll.roots b roots st0 with
  | (.returned _, st1, roots1) => ⟨.returned true, st1, roots1⟩
  | (.raised what, st1, roots1) => ⟨.raised what, st1, roots1⟩
  | (.fault, st1, roots1) => ⟨.fault, st1, roots1⟩

/-! ## Reading traces -/

/-- The request strings passed to the bridge entry point, in order. -/
def requests : List Event → List String
  | [] => []
  | .entryPoint _ data _ _ :: rest => data :: requests rest
  | _ :: rest => requests rest

/-- Whether a request string starts with the verb token `CHECK` and the delimiter. -/
def isCheckRequest (data : String) : Bool := "CHECK||".data.isPrefixOf data.data

/-- The `CHECK` requests passed to the bridge entry point, each with the status
returned for it, in order. -/
def checkAnswers : List Event → List (String × Int)
  | [] => []
  | .entryPoint _ data _ status :: rest =>
    if isCheckRequest data then (data, status) :: checkAnswers rest else checkAnswers rest
  | _ :: rest => checkAnswers rest

/-- Whether an event is a call of `hostfxr_close`. -/
def Event.isClose : Event → Bool
  | .hostfxr_close _ => true
  | _ => false

/-- Whether an event is a call into the bridge entry point. -/
def Event.isEntryPoint : Event → Bool
  | .entryPoint _ _ _ _ => true
  | _ => false

/-- Whether an event is an initialize-context call that came back with a status
greater than 2 (as `u32`) or a null context, or a get-delegate call that came
back with a non-zero status or a null delegate. -/
def Event.isBootstrapFailure : Event → Bool
  | .hostfxr_initialize_for_runtime_config _ status ctx =>
    decide (toU32 status > 2 ∨ ctx = nullptr)
  | .hostfxr_get_runtime_delegate _ status delegate =>
    decide (toU32 status ≠ 0 ∨ delegate = nullptr)
  | _ => false

/-! ## Script discovery as the specification describes it -/

/-- A directory entry that `loadAll` treats as a script: a directory that
contains `Main.dll`. -/
structure Candidate where
  /-- the path of the script directory, `entry.path()` -/
  entryPath : Path
  /-- the path of its `Main.dll` -/
  scriptPath : Path
  deriving DecidableEq, Repr

/-- The candidates of one `custom/dotnet` directory, in listing order. -/
def candidatesOfDir (directoryPath : Path) (entries : List DirEntry) : List Candidate :=
  (entries.filter (fun e => e.is_directory && e.children.contains "Main.dll")).map
    (fun e => ⟨Path.join directoryPath e.filename,
      Path.join (Path.join directoryPath e.filename) "Main.dll"⟩)

/-- The directory `<root>/custom/dotnet` of a script root. -/
def ScriptRoot.directoryPath (root : ScriptRoot) : Path :=
  Path.join (Path.join root.imhexPath "custom") "dotnet"

/-- All candidates of the script roots, in enumeration order. -/
def candidates : List ScriptRoot → List Candidate
  | [] => []
  | root :: rest => candidatesOfDir root.directoryPath root.dotnet.listing ++ candidates rest

/-- The descriptors registered for one candidate, by the three cases of the
specification: one runnable descriptor when `Main` exists, one descriptor that
requires persistent load and does nothing when only `OnLoad` exists, none otherwise. -/
def expectedDescriptors (c : Candidate) (hasMain hasOnLoad : Bool) : List Script :=
  match hasMain, hasOnLoad with
  | true, _ => [⟨Path.stem c.entryPath, false, .runMain c.scriptPath⟩]
  | false, true => [⟨Path.stem c.entryPath, true, .noop⟩]
  | false, false => []

/-- The registry expected for a list of candidates, given the statuses the
bridge returned to the `CHECK` requests (two per candidate, `Main` then `OnLoad`). -/
def expectedRegistry : List Candidate → List Int → List Script
  | c :: cs, main :: onLoad :: statuses =>
    expectedDescriptors c (decide (main = 0)) (decide (onLoad = 0)) ++ expectedRegistry cs statuses
  | _, _ => []

/-- The `CHECK` requests expected for a list of candidates. -/
def expectedChecks : List Candidate → List String
  | [] => []
  | c :: cs =>
    methodExistsString "Main" (toUTF8String c.scriptPath) ::
      methodExistsString "OnLoad" (toUTF8String c.scriptPath) :: expectedChecks cs

/-- What `loadAll` does for one candidate when both members hold a lambda:
the two `CHECK` calls, the registration, the `OnLoad` call. -/
def stepCandidate {σ : Type} (b : Bridge σ) (existsPtr runPtr : Ptr) (c : Candidate)
    (st : Machine σ) : Machine σ :=
  let r1 := methodExistsLambda b existsPtr st "Main" c.scriptPath
  let r2 := methodExistsLambda b existsPtr r1.2 "OnLoad" c.scriptPath
  let st3 : Machine σ := { r2.2 with loader :=
    { r2.2.loader with scripts := r2.2.loader.scripts ++ expectedDescriptors c r1.1 r2.1 } }
  if r2.1 then (runMethodLambda b runPtr st3 "OnLoad" true c.scriptPath).2 else st3

/-- The same for a list of candidates, in order. -/
def runCandidates {σ : Type} (b : Bridge σ) (existsPtr runPtr : Ptr) :
    List Candidate → Machine σ → Machine σ
  | [], st => st
  | c :: cs, st => runCandidates b existsPtr runPtr cs (stepCandidate b existsPtr runPtr c st)

/-- A script root after one pass of the outer loop of `loadAll`. -/
def ScriptRoot.afterCreate (root : ScriptRoot) : ScriptRoot :=
  { root with dotnet := root.dotnet.afterCreate }

/-! ## Concrete environments -/

/-- A Linux host on which every bootstrap step succeeds. -/
def exampleHost : Host where
  platform := .linux
  pluginPaths := ["/usr/lib/imhex/plugins"]
  loadLibrary := fun name =>
    if name = "libnethost.so" then 1000
    else if name = "/usr/share/dotnet/host/fxr/libhostfxr.so" then 2000
    else nullptr
  getExport := fun module symbol =>
    if module = 1000 ∧ symbol = "get_hostfxr_path" then 1001
    else if module = 2000 ∧ symbol = "hostfxr_initialize_for_runtime_config" then 2001
    else if module = 2000 ∧ symbol = "hostfxr_get_runtime_delegate" then 2002
    else if module = 2000 ∧ symbol = "hostfxr_close" then 2003
    else if module = 2000 ∧ symbol = "hostfxr_set_runtime_property_value" then 2004
    else if module = 2000 ∧ symbol = "hostfxr_set_error_writer" then 2005
    else if module = 3000 ∧ symbol = "igText" then 3001
    else nullptr
  libImHexModuleHandle := 3000
  getContainingModule := fun _ => 4000
  pInvokeOverrideAddress := 4096
  fileExists := fun path => decide (path = "/usr/lib/imhex/plugins/AssemblyLoader.dll")
  absolute := fun path => path
  get_hostfxr_path := (0, "/usr/share/dotnet/host/fxr/libhostfxr.so")
  hostfxr_initialize_for_runtime_config := fun _ => (0, 5000)
  hostfxr_get_runtime_delegate := fun _ => (0, 6000)
  load_assembly_and_get_function_pointer := fun _ _ => (0, 7000)

/-- The same host with a hosting library that lacks the export
`hostfxr_set_error_writer`. -/
def hostWithoutErrorWriter : Host :=
  { exampleHost with
    getExport := fun module symbol =>
      if symbol = "hostfxr_set_error_writer" then nullptr
      else exampleHost.getExport module symbol }

/-- The same host with a hosting library that exports none of the five hosting
functions. -/
def hostWithoutHostingExports : Host :=
  { exampleHost with
    getExport := fun module symbol =>
      if module = 2000 then nullptr else exampleHost.getExport module symbol }

/-- The same host with a hosting library that lacks the export `hostfxr_close`. -/
def hostWithoutClose : Host :=
  { exampleHost with
    getExport := fun module symbol =>
      if symbol = "hostfxr_close" then nullptr else exampleHost.getExport module symbol }

/-- The same host with a hosting library whose initialize-context call fails
with status `0x80008093` and leaves the context null. -/
def hostWithNullContext : Host :=
  { exampleHost with
    hostfxr_initialize_for_runtime_config := fun _ => (-2147450733, nullptr) }

/-- A bridge that counts the calls it receives and knows two scripts:
`Foo` has `Main` and `OnLoad`, `Bar.Baz` has only `Main`. -/
def exampleBridge : Bridge Nat where
  entryPoint := fun _ calls data _ =>
    (if data = "CHECK||Main||/scripts/custom/dotnet/Foo/Main.dll" then 0
     else if data = "CHECK||OnLoad||/scripts/custom/dotnet/Foo/Main.dll" then 0
     else if data = "CHECK||Main||/scripts/custom/dotnet/Bar.Baz/Main.dll" then 0
     else if data = "LOAD||OnLoad||/scripts/custom/dotnet/Foo/Main.dll" then 0
     else if data = "EXEC||Main||/scripts/custom/dotnet/Foo/Main.dll" then 0
     else 1, calls + 1)

/-- Two script roots: one with the scripts `Foo` and `Bar.Baz` and a plain
file, one whose `custom/dotnet` directory does not exist yet. -/
def exampleRoots : List ScriptRoot :=
  [ ⟨"/scripts", .present
      [ ⟨"Foo", true, ["Main.dll"]⟩,
        ⟨"notes.txt", false, []⟩,
        ⟨"Bar.Baz", true, ["Main.dll", "Bar.Baz.deps.json"]⟩ ]⟩,
    ⟨"/home/user/scripts", .absent true⟩ ]

/-- A machine whose loader was initialised with the entry point `7000` and
whose registry holds a stale descriptor. -/
def exampleMachine : Machine Nat where
  loader := ⟨"/usr/lib/imhex/plugins/AssemblyLoader.dll", some 7000, some 7000,
    [⟨"Stale", false, .noop⟩]⟩
  bridge := 0
  trace := []

/-- Two script roots, `/scripts` and `/scripts/`, that name the same directory,
which holds the script `Foo`. -/
def twiceListedRoots : List ScriptRoot :=
  [ ⟨"/scripts", .present [⟨"Foo", true, ["Main.dll"]⟩]⟩,
    ⟨"/scripts/", .present [⟨"Foo", true, ["Main.dll"]⟩]⟩ ]

/-- One script root with the single script directory `Foo.Bar`. -/
def dottedRoots : List ScriptRoot :=
  [ ⟨"/scripts", .present [⟨"Foo.Bar", true, ["Main.dll"]⟩]⟩ ]

/-- A bridge without state that answers every request with status 0. -/
def agreeingBridge : Bridge Unit where
  entryPoint := fun _ _ _ _ => (0, ())

/-- A machine for the stateless bridge, its loader initialised with the entry
point `7000` and an empty registry. -/
def initialisedMachine : Machine Unit where
  loader := ⟨"/usr/lib/imhex/plugins/AssemblyLoader.dll", some 7000, some 7000, []⟩
  bridge := ()
  trace := []

/-- The candidate for the script directory `Foo` of the example roots. -/
def fooCandidate : Candidate :=
  ⟨"/scripts/custom/dotnet/Foo", "/scripts/custom/dotnet/Foo/Main.dll"⟩

/-! ## Lemmas on the wire form -/

theorem containsDelimiterChars_iff (l : List Char) :
    containsDelimiterChars l = true ↔ ∃ a b, l = a ++ '|' :: '|' :: b := by
  induction l using containsDelimiterChars.induct with
  | case1 => simp [containsDelimiterChars]
  | case2 c =>
    simp only [containsDelimiterChars, Bool.false_eq_true, false_iff]
    rintro ⟨a, b, h⟩
    have := congrArg List.length h
    simp at this
    omega
  | case3 c d rest ih =>
    simp only [containsDelimiterChars, Bool.or_eq_true, Bool.and_eq_true, beq_iff_eq, ih]
    constructor
    · rintro (⟨h1, h2⟩ | ⟨a, b, h⟩)
      · exact ⟨[], rest, by simp [h1, h2]⟩
      · exact ⟨c :: a, b, by simp [h]⟩
    · rintro ⟨a, b, h⟩
      cases a with
      | nil =>
        left
        simp at h
        exact ⟨h.1, h.2.1⟩
      | cons x a =>
        right
        simp at h
        exact ⟨a, b, h.2⟩


theorem splitDelimiter_ne_nil (l : List Char) : splitDelimiter l ≠ [] := by
  induction l using splitDelimiter.induct with
  | case1 => simp [splitDelimiter]
  | case2 c => simp [splitDelimiter]
  | case3 c d rest h ih => simp [splitDelimiter, h]
  | case4 c d rest h hs ih => simp [splitDelimiter, h, hs]
  | case5 c d rest h f fs hs ih => simp [splitDelimiter, h, hs]

theorem splitDelimiter_of_free (l : List Char) (h : containsDelimiterChars l = false) :
    splitDelimiter l = [l] := by
  induction l using splitDelimiter.induct with
  | case1 => simp [splitDelimiter]
  | case2 c => simp [splitDelimiter]
  | case3 c d rest hc ih =>
    simp [containsDelimiterChars, hc.1, hc.2] at h
  | case4 c d rest hc hs ih => exact absurd hs (splitDelimiter_ne_nil _)
  | case5 c d rest hc f fs hs ih =>
    simp only [containsDelimiterChars, Bool.or_eq_false_iff] at h
    have := ih h.2
    rw [hs] at this
    simp [splitDelimiter, hc, hs]
    simp at this
    exact this

theorem splitDelimiter_append (a b : List Char) (h : containsDelimiterChars a = false)
    (hb : a.getLast? ≠ some '|') :
    splitDelimiter (a ++ '|' :: '|' :: b) = a :: splitDelimiter b := by
  induction a using splitDelimiter.induct with
  | case1 => simp [splitDelimiter]
  | case2 c =>
    have hc : c ≠ '|' := by simpa using hb
    simp [splitDelimiter, hc]
  | case3 c d rest hc ih =>
    simp [containsDelimiterChars, hc.1, hc.2] at h
  | case4 c d rest hc hs ih => exact absurd hs (splitDelimiter_ne_nil _)
  | case5 c d rest hc f fs hs ih =>
    simp only [containsDelimiterChars, Bool.or_eq_false_iff] at h
    have hb' : (d :: rest).getLast? ≠ some '|' := by
      simpa [List.getLast?_cons_cons] using hb
    have := ih h.2 hb'
    simp only [List.cons_append] at this ⊢
    rw [splitDelimiter]
    simp only [hc, if_false, this]

theorem encode_data (v : Verb) (m p : String) :
    (encode v m p).data = v.token.data ++ '|' :: '|' :: (m.data ++ '|' :: '|' :: p.data) := by
  cases v <;> simp [encode, methodExistsString, runMethodString, Verb.token, String.data_append]

theorem token_free (v : Verb) :
    containsDelimiterChars v.token.data = false ∧ v.token.data.getLast? ≠ some '|' := by
  cases v <;> decide

theorem ofToken_token (v : Verb) : Verb.ofToken (String.mk v.token.data) = some v := by
  cases v <;> decide

theorem decode_encode (v : Verb) (m p : String)
    (hm : containsDelimiter m = false) (hp : containsDelimiter p = false)
    (hb : endsInBar m = false) :
    decode (encode v m p) = some (v, m, p) := by
  have hb' : m.data.getLast? ≠ some '|' := by
    simpa [endsInBar] using hb
  unfold decode
  rw [encode_data, splitDelimiter_append _ _ (token_free v).1 (token_free v).2,
    splitDelimiter_append _ _ hm hb', splitDelimiter_of_free _ hp]
  simp [ofToken_token]

/-- C1 (amended): for delimiter-free fields whose method name does not end in `|`,
the wire string decodes to its verb, method name and path, re-encoding gives the
same wire string, and equal wire strings have equal fields. -/
theorem C1_wire_roundtrip (v : Verb) (m p : String)
    (hm : containsDelimiter m = false) (hp : containsDelimiter p = false)
    (hb : endsInBar m = false) :
    decode (encode v m p) = some (v, m, p) ∧
    (∀ r, decode (encode v m p) = some r → encode r.1 r.2.1 r.2.2 = encode v m p) ∧
    (∀ v' m' p', containsDelimiter m' = false → containsDelimiter p' = false →
      endsInBar m' = false → encode v m p = encode v' m' p' →
      v = v' ∧ m = m' ∧ p = p') := by
  refine ⟨decode_encode v m p hm hp hb, ?_, ?_⟩
  · intro r hr
    rw [decode_encode v m p hm hp hb] at hr
    cases hr
    rfl
  · intro v' m' p' hm' hp' hb' he
    have h1 := decode_encode v m p hm hp hb
    rw [he, decode_encode v' m' p' hm' hp' hb'] at h1
    simpa [eq_comm] using h1

/-- C1 (witness): the round trip at the request `EXEC||Main||/scripts/custom/dotnet/Foo/Main.dll`. -/
theorem C1_wire_roundtrip_witness :
    containsDelimiter "Main" = false ∧
    containsDelimiter "/scripts/custom/dotnet/Foo/Main.dll" = false ∧
    endsInBar "Main" = false ∧
    decode (encode .EXEC "Main" "/scripts/custom/dotnet/Foo/Main.dll")
      = some (.EXEC, "Main", "/scripts/custom/dotnet/Foo/Main.dll") :=
  ⟨by decide, by decide, by decide,
   (C1_wire_roundtrip .EXEC "Main" "/scripts/custom/dotnet/Foo/Main.dll"
    (by decide) (by decide) (by decide)).1⟩

/-- C1 (counterexample): the method names `a|` and `a` and the paths `b` and `|b`
contain no delimiter, yet both requests have the wire string `EXEC||a|||b`, which
decodes to method `a` and path `|b`. -/
theorem C1_delimiter_free_collision :
    containsDelimiter "a|" = false ∧ containsDelimiter "b" = false ∧
    containsDelimiter "a" = false ∧ containsDelimiter "|b" = false ∧
    runMethodString "a|" false "b" = "EXEC||a|||b" ∧
    runMethodString "a" false "|b" = "EXEC||a|||b" ∧
    encode .EXEC "a|" "b" = encode .EXEC "a" "|b" ∧
    "a|" ≠ "a" ∧
    decode (encode .EXEC "a|" "b") = some (.EXEC, "a", "|b") := by
  decide

/-! ## Symbol resolver -/

/-- C9: `pInvokeOverride` returns the export lookup of the symbol in the libimhex
module for the library name `cimgui`, the export lookup in the module containing
`pInvokeOverride` for the library name `ImHex`, and for every other name returns
null without any lookup; the match is exact and case-sensitive. -/
theorem C9_pInvokeOverride (host : Host) (libraryName symbolName : String) :
    (libraryName = "cimgui" →
      pInvokeOverride host libraryName symbolName =
        (host.getExport host.libImHexModuleHandle symbolName,
          [Event.getExport host.libImHexModuleHandle symbolName
            (host.getExport host.libImHexModuleHandle symbolName)])) ∧
    (libraryName = "ImHex" →
      pInvokeOverride host libraryName symbolName =
        (host.getExport (host.getContainingModule host.pInvokeOverrideAddress) symbolName,
          [Event.getExport (host.getContainingModule host.pInvokeOverrideAddress) symbolName
            (host.getExport (host.getContainingModule host.pInvokeOverrideAddress) symbolName)])) ∧
    (libraryName ≠ "cimgui" → libraryName ≠ "ImHex" →
      pInvokeOverride host libraryName symbolName = (nullptr, [])) := by
  refine ⟨?_, ?_, ?_⟩
  · intro h
    subst h
    simp [pInvokeOverride]
  · intro h
    subst h
    have hne : ("ImHex" : String) ≠ "cimgui" := by decide
    simp [pInvokeOverride, hne]
  · intro h1 h2
    simp [pInvokeOverride, h1, h2]

/-- C9 (witness): on the example host `cimgui` resolves `igText` in libimhex, and the
names `CIMGUI` and `imhex`, which differ from the two recognised names only in
case, resolve to null without a lookup. -/
theorem C9_pInvokeOverride_witness :
    pInvokeOverride exampleHost "cimgui" "igText" = (3001, [Event.getExport 3000 "igText" 3001]) ∧
    pInvokeOverride exampleHost "CIMGUI" "igText" = (nullptr, []) ∧
    pInvokeOverride exampleHost "imhex" "igText" = (nullptr, []) :=
  ⟨(C9_pInvokeOverride exampleHost "cimgui" "igText").1 rfl,
   (C9_pInvokeOverride exampleHost "CIMGUI" "igText").2.2 (by decide) (by decide),
   (C9_pInvokeOverride exampleHost "imhex" "igText").2.2 (by decide) (by decide)⟩

/-! ## Dispatch protocol -/

theorem requests_append (t u : List Event) : requests (t ++ u) = requests t ++ requests u := by
  induction t with
  | nil => rfl
  | cons e t ih => cases e <;> simp [requests, ih]

theorem methodExistsString_ne_runMethodString (m p m' : String) (k : Bool) (p' : String) :
    methodExistsString m p ≠ runMethodString m' k p' := by
  intro h
  have hd := congrArg String.data h
  cases k <;> simp [methodExistsString, runMethodString, String.data_append] at hd

theorem sizeArgument_exact (string : String) (h : string.utf8ByteSize < 2147483648) :
    sizeArgument string = (string.toUTF8.size : Int) := by
  rw [String.size_toUTF8]
  unfold sizeArgument toI32
  omega

/-- C6 (amended): for a request string `CHECK||` + methodName + `||` + UTF-8 path
shorter than 2^31 bytes, the `m_methodExists` lambda passes exactly one request to
the entry point, that string with its exact byte length, returns true exactly when
the entry point returned 0, and its request string differs from every request
string of `m_runMethod`. -/
theorem C6_methodExists_request {σ : Type} (b : Bridge σ) (entryPoint : Ptr)
    (st : Machine σ) (methodName : String) (path : Path)
    (hsize : ("CHECK||" ++ methodName ++ "||" ++ path).utf8ByteSize < 2147483648) :
    (methodExistsLambda b entryPoint st methodName path).2.trace =
      st.trace ++ [Event.entryPoint entryPoint
        ("CHECK||" ++ methodName ++ "||" ++ path)
        (("CHECK||" ++ methodName ++ "||" ++ path).toUTF8.size : Int)
        (b.entryPoint entryPoint st.bridge
          ("CHECK||" ++ methodName ++ "||" ++ path)
          (("CHECK||" ++ methodName ++ "||" ++ path).toUTF8.size : Int)).1] ∧
    ((methodExistsLambda b entryPoint st methodName path).1 = true ↔
      (b.entryPoint entryPoint st.bridge
        ("CHECK||" ++ methodName ++ "||" ++ path)
        (("CHECK||" ++ methodName ++ "||" ++ path).toUTF8.size : Int)).1 = 0) ∧
    (methodExistsLambda b entryPoint st methodName path).2.loader = st.loader ∧
    (∀ (σ' : Type) (b' : Bridge σ') (entryPoint' : Ptr) (st' : Machine σ')
        (m : String) (keepLoaded : Bool) (p : Path),
      requests (runMethodLambda b' entryPoint' st' m keepLoaded p).2.trace =
        requests st'.trace ++
          [(if keepLoaded then "LOAD" else "EXEC") ++ "||" ++ m ++ "||" ++ p] ∧
      "CHECK||" ++ methodName ++ "||" ++ path ≠
        (if keepLoaded then "LOAD" else "EXEC") ++ "||" ++ m ++ "||" ++ p) := by
  have hs := sizeArgument_exact _ hsize
  refine ⟨?_, ?_, ?_, ?_⟩
  · simp only [methodExistsLambda, callEntryPoint, methodExistsString, toUTF8String, hs]
  · simp only [methodExistsLambda, callEntryPoint, methodExistsString, toUTF8String, hs,
      decide_eq_true_eq]
  · simp [methodExistsLambda, callEntryPoint]
  · intro σ' b' entryPoint' st' m k p
    refine ⟨?_, ?_⟩
    · simp [runMethodLambda, callEntryPoint, runMethodString, requests_append, requests,
        toUTF8String]
    · exact methodExistsString_ne_runMethodString methodName path m k p

/-- C6 (witness): the check for `Main` on the script `Foo` sends the one request
`CHECK||Main||/scripts/custom/dotnet/Foo/Main.dll` with the length 48. -/
theorem C6_methodExists_request_witness :
    ("CHECK||" ++ "Main" ++ "||" ++ "/scripts/custom/dotnet/Foo/Main.dll").utf8ByteSize
      < 2147483648 ∧
    (methodExistsLambda exampleBridge 7000 exampleMachine "Main"
      "/scripts/custom/dotnet/Foo/Main.dll").2.loader = exampleMachine.loader ∧
    (methodExistsLambda exampleBridge 7000 exampleMachine "Main"
      "/scripts/custom/dotnet/Foo/Main.dll").2.trace =
      [Event.entryPoint 7000 "CHECK||Main||/scripts/custom/dotnet/Foo/Main.dll" 48 0] ∧
    (methodExistsLambda exampleBridge 7000 exampleMachine "Main"
      "/scripts/custom/dotnet/Foo/Main.dll").1 = true :=
  ⟨by decide,
   (C6_methodExists_request exampleBridge 7000 exampleMachine "Main"
      "/scripts/custom/dotnet/Foo/Main.dll" (by decide)).2.2.1,
   by decide, by decide⟩

theorem utf8Len_replicate_a (n : Nat) : String.utf8Len (List.replicate n 'a') = n := by
  induction n with
  | zero => rfl
  | succ n ih =>
    rw [List.replicate_succ, String.utf8Len_cons, ih]
    rfl

theorem methodExistsString_main_size (n : Nat) :
    (methodExistsString "Main" (String.mk (List.replicate n 'a'))).utf8ByteSize = n + 13 := by
  have h : methodExistsString "Main" (String.mk (List.replicate n 'a')) =
      String.mk ("CHECK||Main||".data ++ List.replicate n 'a') := by
    apply String.ext
    simp [methodExistsString, String.data_append]
  rw [h, String.utf8ByteSize_mk, String.utf8Len_append, utf8Len_replicate_a, Nat.add_comm]
  rfl

/-- C6 (counterexample): for the method `Main` and a path of 2^31 characters `a` the
request string has 2147483661 bytes, and the lambda passes the length -2147483635
to the entry point. -/
theorem C6_length_wraps_at_two_gibibytes :
    (methodExistsString "Main"
      (String.mk (List.replicate 2147483648 'a'))).utf8ByteSize = 2147483661 ∧
    (methodExistsLambda agreeingBridge 7000 initialisedMachine "Main"
      (String.mk (List.replicate 2147483648 'a'))).2.trace =
      [Event.entryPoint 7000
        (methodExistsString "Main" (String.mk (List.replicate 2147483648 'a')))
        (-2147483635) 0] := by
  have hsize := methodExistsString_main_size 2147483648
  refine ⟨hsize, ?_⟩
  have harg : sizeArgument (methodExistsString "Main"
      (String.mk (List.replicate 2147483648 'a'))) = -2147483635 := by
    unfold sizeArgument
    rw [hsize]
    decide
  simp only [methodExistsLambda, callEntryPoint, toUTF8String, harg, initialisedMachine,
    agreeingBridge, List.nil_append]

/-! ## Bootstrap -/

/-- C3 (failing input): with a hosting library that exports none of the five
functions, or all but `hostfxr_set_error_writer`, `loadHostfxr` calls through the
null pointer `hostfxr_set_error_writer` (line 103) before the null checks of its
return expression, so it does not return false; with only `hostfxr_close` missing
it returns false, but only after it has called `hostfxr_set_error_writer` from the
partly filled table. -/
theorem C3_error_writer_called_before_check :
    (loadHostfxr hostWithoutHostingExports .initial).table = .initial ∧
    (loadHostfxr hostWithoutHostingExports .initial).outcome = .fault ∧
    (loadHostfxr hostWithoutHostingExports .initial).outcome ≠ .returned false ∧
    (loadHostfxr hostWithoutErrorWriter .initial).table.complete = false ∧
    (loadHostfxr hostWithoutErrorWriter .initial).table.hostfxr_set_error_writer = nullptr ∧
    (loadHostfxr hostWithoutErrorWriter .initial).outcome = .fault ∧
    (loadHostfxr hostWithoutClose .initial).table.complete = false ∧
    (loadHostfxr hostWithoutClose .initial).outcome = .returned false ∧
    Event.hostfxr_set_error_writer ∈ (loadHostfxr hostWithoutClose .initial).trace := by
  decide

theorem loadHostfxr_returned_true (host : Host) (table : HostingFunctionTable)
    (h : (loadHostfxr host table).outcome = .returned true) :
    (loadHostfxr host table).table.complete = true := by
  unfold loadHostfxr at h ⊢
  by_cases h1 : loadHostfxr.netHostLibrary host = nullptr
  · simp [h1] at h
  · by_cases h2 : host.getExport (loadHostfxr.netHostLibrary host) "get_hostfxr_path" = nullptr
    · simp [h1, h2] at h
    · by_cases h3 : host.get_hostfxr_path.1 = 0
      · by_cases h4 : host.loadLibrary host.get_hostfxr_path.2 = nullptr
        · simp [h1, h2, h3, h4] at h
        · by_cases h5 : host.getExport (host.loadLibrary host.get_hostfxr_path.2)
              "hostfxr_set_error_writer" = nullptr
          · simp [h1, h2, h3, h4, h5] at h
          · simp only [h1, h2, h3, h4, h5, if_false, not_true_eq_false, ne_eq] at h ⊢
            simpa using h
      · simp [h1, h2, h3] at h

theorem loadHostfxr_trace (host : Host) (table : HostingFunctionTable) :
    ∀ e ∈ (loadHostfxr host table).trace,
      e.isBootstrapFailure = false ∧ e.isEntryPoint = false := by
  unfold loadHostfxr
  by_cases h1 : loadHostfxr.netHostLibrary host = nullptr
  · simp [h1]
  · by_cases h2 : host.getExport (loadHostfxr.netHostLibrary host) "get_hostfxr_path" = nullptr
    · simp [h1, h2, Event.isBootstrapFailure, Event.isEntryPoint]
    · by_cases h3 : host.get_hostfxr_path.1 = 0
      · by_cases h4 : host.loadLibrary host.get_hostfxr_path.2 = nullptr
        · simp [h1, h2, h3, h4, Event.isBootstrapFailure, Event.isEntryPoint]
        · by_cases h5 : host.getExport (host.loadLibrary host.get_hostfxr_path.2)
              "hostfxr_set_error_writer" = nullptr
          · simp [h1, h2, h3, h4, h5, Event.isBootstrapFailure, Event.isEntryPoint]
          · simp [h1, h2, h3, h4, h5, Event.isBootstrapFailure, Event.isEntryPoint]
      · simp [h1, h2, h3, Event.isBootstrapFailure, Event.isEntryPoint]

/-- Whenever `loadHostfxr` reaches the resolution of the five functions and the
export `hostfxr_set_error_writer` is missing, it calls through the null pointer. -/
theorem loadHostfxr_error_writer_missing (host : Host) (table : HostingFunctionTable)
    (h1 : loadHostfxr.netHostLibrary host ≠ nullptr)
    (h2 : host.getExport (loadHostfxr.netHostLibrary host) "get_hostfxr_path" ≠ nullptr)
    (h3 : host.get_hostfxr_path.1 = 0)
    (h4 : host.loadLibrary host.get_hostfxr_path.2 ≠ nullptr)
    (h5 : host.getExport (host.loadLibrary host.get_hostfxr_path.2)
      "hostfxr_set_error_writer" = nullptr) :
    (loadHostfxr host table).outcome = .fault := by
  unfold loadHostfxr
  simp [h1, h2, h3, h4, h5]

theorem complete_iff (table : HostingFunctionTable) :
    table.complete = true ↔
      table.hostfxr_initialize_for_runtime_config ≠ nullptr ∧
      table.hostfxr_get_runtime_delegate ≠ nullptr ∧
      table.hostfxr_close ≠ nullptr ∧
      table.hostfxr_set_runtime_property_value ≠ nullptr ∧
      table.hostfxr_set_error_writer ≠ nullptr := by
  simp [HostingFunctionTable.complete, and_assoc]

/-- The runs of `getLoadAssemblyFunction` with a complete function table: the three
ways it can end, each with its full trace. -/
theorem getLoadAssemblyFunction_cases (host : Host) (table : HostingFunctionTable)
    (path : Path) (hc : table.complete = true) :
    let status := (host.hostfxr_initialize_for_runtime_config path).1
    let ctx := (host.hostfxr_initialize_for_runtime_config path).2
    let init := Event.hostfxr_initialize_for_runtime_config path status ctx
    let setProperty := Event.hostfxr_set_runtime_property_value ctx "PINVOKE_OVERRIDE"
      (formatPointer host.pInvokeOverrideAddress)
    let getDelegate := Event.hostfxr_get_runtime_delegate ctx
      (host.hostfxr_get_runtime_delegate ctx).1 (host.hostfxr_get_runtime_delegate ctx).2
    (init.isBootstrapFailure = true ∧
      getLoadAssemblyFunction host table path =
        ⟨.raised ("Failed to initialize command line 0x" ++ formatHexUpper (toU32 status)),
          [init, Event.hostfxr_close ctx]⟩) ∨
    (init.isBootstrapFailure = false ∧ getDelegate.isBootstrapFailure = true ∧
      getLoadAssemblyFunction host table path =
        ⟨.raised ("Failed to get load_assembly_and_get_function_pointer delegate 0x"
            ++ formatHexUpper (toU32 (host.hostfxr_get_runtime_delegate ctx).1)),
          [init, setProperty, getDelegate, Event.hostfxr_close ctx]⟩) ∨
    (init.isBootstrapFailure = false ∧ getDelegate.isBootstrapFailure = false ∧
      getLoadAssemblyFunction host table path =
        ⟨.returned (host.hostfxr_get_runtime_delegate ctx).2,
          [init, setProperty, getDelegate, Event.hostfxr_close ctx]⟩) := by
  obtain ⟨h1, h2, h3, h4, _⟩ := (complete_iff table).1 hc
  intro status ctx init setProperty getDelegate
  by_cases hi : toU32 status > 2 ∨ ctx = nullptr
  · left
    refine ⟨by simpa [init, Event.isBootstrapFailure] using hi, ?_⟩
    simp only [getLoadAssemblyFunction, getLoadAssemblyFunction.guarded,
      getLoadAssemblyFunction.onScopeExit, h1, h3, if_false]
    rw [if_pos hi]
    rfl
  · right
    by_cases hd : toU32 (host.hostfxr_get_runtime_delegate ctx).1 ≠ 0 ∨
        (host.hostfxr_get_runtime_delegate ctx).2 = nullptr
    · left
      refine ⟨by simpa [init, Event.isBootstrapFailure] using hi,
        by simpa [getDelegate, Event.isBootstrapFailure] using hd, ?_⟩
      simp only [getLoadAssemblyFunction, getLoadAssemblyFunction.guarded,
        getLoadAssemblyFunction.onScopeExit, h1, h2, h3, h4, if_false]
      rw [if_neg hi, if_pos hd]
      rfl
    · right
      refine ⟨by simpa [init, Event.isBootstrapFailure] using hi,
        by simpa [getDelegate, Event.isBootstrapFailure] using hd, ?_⟩
      simp only [getLoadAssemblyFunction, getLoadAssemblyFunction.guarded,
        getLoadAssemblyFunction.onScopeExit, h1, h2, h3, h4, if_false]
      rw [if_neg hi, if_neg hd]
      rfl

/-- C7: started with a complete function table, `getLoadAssemblyFunction` returns or
raises; its first call is the initialize-context call, the context handle that call
produced is passed to `hostfxr_close` exactly once, and that call is the last one,
so no set-property or get-delegate call follows it. -/
theorem C7_context_closed_exactly_once (host : Host) (table : HostingFunctionTable)
    (path : Path) (hc : table.complete = true) :
    (getLoadAssemblyFunction host table path).outcome ≠ .fault ∧
    (getLoadAssemblyFunction host table path).trace.head? =
      some (Event.hostfxr_initialize_for_runtime_config path
        (host.hostfxr_initialize_for_runtime_config path).1
        (host.hostfxr_initialize_for_runtime_config path).2) ∧
    (getLoadAssemblyFunction host table path).trace.filter Event.isClose =
      [Event.hostfxr_close (host.hostfxr_initialize_for_runtime_config path).2] ∧
    (getLoadAssemblyFunction host table path).trace.getLast? =
      some (Event.hostfxr_close (host.hostfxr_initialize_for_runtime_config path).2) := by
  rcases getLoadAssemblyFunction_cases host table path hc with h | h | h
  · rw [h.2]
    simp [Event.isClose]
  · rw [h.2.2]
    simp [Event.isClose]
  · rw [h.2.2]
    simp [Event.isClose]

/-- C7 (witness): on the example host, after `loadHostfxr`, the context `5000` is
closed once, last. -/
theorem C7_context_closed_exactly_once_witness :
    (loadHostfxr exampleHost .initial).table.complete = true ∧
    (getLoadAssemblyFunction exampleHost (loadHostfxr exampleHost .initial).table
      "/usr/lib/imhex/plugins/AssemblyLoader.runtimeconfig.json").trace.filter Event.isClose =
      [Event.hostfxr_close 5000] ∧
    (getLoadAssemblyFunction exampleHost (loadHostfxr exampleHost .initial).table
      "/usr/lib/imhex/plugins/AssemblyLoader.runtimeconfig.json").trace.getLast? =
      some (Event.hostfxr_close 5000) :=
  ⟨by decide,
   (C7_context_closed_exactly_once exampleHost (loadHostfxr exampleHost .initial).table
      "/usr/lib/imhex/plugins/AssemblyLoader.runtimeconfig.json" (by decide)).2.2.1,
   (C7_context_closed_exactly_once exampleHost (loadHostfxr exampleHost .initial).table
      "/usr/lib/imhex/plugins/AssemblyLoader.runtimeconfig.json" (by decide)).2.2.2⟩

/-- The loop of `initialize` with a complete function table: either it raises and
leaves the two members as they were, or it returns and no call of its trace failed.
It never calls the bridge entry point. -/
theorem initialize_loop_cases (host : Host) (table : HostingFunctionTable)
    (hc : table.complete = true) :
    ∀ (paths : List Path) (self : DotNetLoader) (t : List Event),
      (∀ e ∈ t, e.isBootstrapFailure = false) →
      (((∃ what, ( DotNetLoader.initialize.loop host table paths self t).outcome = .raised what) ∧
          ( DotNetLoader.initialize.loop host table paths self t).loader.m_runMethod
            = self.m_runMethod ∧
          ( DotNetLoader.initialize.loop host table paths self t).loader.m_methodExists
            = self.m_methodExists) ∨
        ((∃ v, ( DotNetLoader.initialize.loop host table paths self t).outcome = .returned v) ∧
          ∀ e ∈ ( DotNetLoader.initialize.loop host table paths self t).trace,
            e.isBootstrapFailure = false)) := by
  intro paths
  induction paths with
  | nil =>
    intro self t ht
    right
    exact ⟨⟨false, rfl⟩, ht⟩
  | cons path rest ih =>
    intro self t ht
    rw [ DotNetLoader.initialize.loop]
    by_cases hf : host.fileExists (Path.join path "AssemblyLoader.dll") = true
    · simp only [hf, Bool.not_true, Bool.false_eq_true, if_false]
      rcases getLoadAssemblyFunction_cases host table
        (Path.join (host.absolute path) "AssemblyLoader.runtimeconfig.json") hc with h | h | h
      · rw [h.2]
        left
        exact ⟨⟨_, rfl⟩, rfl, rfl⟩
      · rw [h.2.2]
        left
        exact ⟨⟨_, rfl⟩, rfl, rfl⟩
      · rw [h.2.2]
        simp only
        have ht1 : ∀ e ∈ t ++
            [Event.hostfxr_initialize_for_runtime_config
              (Path.join (host.absolute path) "AssemblyLoader.runtimeconfig.json")
              (host.hostfxr_initialize_for_runtime_config
                (Path.join (host.absolute path) "AssemblyLoader.runtimeconfig.json")).1
              (host.hostfxr_initialize_for_runtime_config
                (Path.join (host.absolute path) "AssemblyLoader.runtimeconfig.json")).2,
             Event.hostfxr_set_runtime_property_value
              (host.hostfxr_initialize_for_runtime_config
                (Path.join (host.absolute path) "AssemblyLoader.runtimeconfig.json")).2
              "PINVOKE_OVERRIDE" (formatPointer host.pInvokeOverrideAddress),
             Event.hostfxr_get_runtime_delegate
              (host.hostfxr_initialize_for_runtime_config
                (Path.join (host.absolute path) "AssemblyLoader.runtimeconfig.json")).2
              (host.hostfxr_get_runtime_delegate
                (host.hostfxr_initialize_for_runtime_config
                  (Path.join (host.absolute path) "AssemblyLoader.runtimeconfig.json")).2).1
              (host.hostfxr_get_runtime_delegate
                (host.hostfxr_initialize_for_runtime_config
                  (Path.join (host.absolute path) "AssemblyLoader.runtimeconfig.json")).2).2,
             Event.hostfxr_close
              (host.hostfxr_initialize_for_runtime_config
                (Path.join (host.absolute path) "AssemblyLoader.runtimeconfig.json")).2] ++
            [Event.loadAssembly
              (host.hostfxr_get_runtime_delegate
                (host.hostfxr_initialize_for_runtime_config
                  (Path.join (host.absolute path) "AssemblyLoader.runtimeconfig.json")).2).2
              (Path.join path "AssemblyLoader.dll") "ImHex.EntryPoint, AssemblyLoader"
              "ExecuteScript"
              (host.load_assembly_and_get_function_pointer
                (host.hostfxr_get_runtime_delegate
                  (host.hostfxr_initialize_for_runtime_config
                    (Path.join (host.absolute path) "AssemblyLoader.runtimeconfig.json")).2).2
                (Path.join path "AssemblyLoader.dll")).1
              (host.load_assembly_and_get_function_pointer
                (host.hostfxr_get_runtime_delegate
                  (host.hostfxr_initialize_for_runtime_config
                    (Path.join (host.absolute path) "AssemblyLoader.runtimeconfig.json")).2).2
                (Path.join path "AssemblyLoader.dll")).2],
            e.isBootstrapFailure = false := by
          intro e he
          simp only [List.mem_append, List.mem_cons, List.mem_singleton, List.not_mem_nil,
            or_false] at he
          rcases he with (he | he | he | he | he) | he
          · exact ht e he
          · rw [he]; exact h.1
          · rw [he]; rfl
          · rw [he]; exact h.2.1
          · rw [he]; rfl
          · rw [he]; rfl
        split
        · exact ih _ _ ht1
        · right
          exact ⟨⟨true, rfl⟩, ht1⟩
    · simp only [hf, Bool.not_false, if_true]
      exact ih self t ht

theorem initialize_loop_no_entryPoint (host : Host) (table : HostingFunctionTable)
    (hc : table.complete = true) :
    ∀ (paths : List Path) (self : DotNetLoader) (t : List Event),
      (∀ e ∈ t, e.isEntryPoint = false) →
      ∀ e ∈ ( DotNetLoader.initialize.loop host table paths self t).trace,
        e.isEntryPoint = false := by
  intro paths
  induction paths with
  | nil =>
    intro self t ht
    exact ht
  | cons path rest ih =>
    intro self t ht
    rw [ DotNetLoader.initialize.loop]
    by_cases hf : host.fileExists (Path.join path "AssemblyLoader.dll") = true
    · simp only [hf, Bool.not_true, Bool.false_eq_true, if_false]
      rcases getLoadAssemblyFunction_cases host table
        (Path.join (host.absolute path) "AssemblyLoader.runtimeconfig.json") hc with h | h | h
      · rw [h.2]
        intro e he
        simp only [List.mem_append, List.mem_cons, List.mem_singleton, List.not_mem_nil,
          or_false] at he
        rcases he with he | he | he
        · exact ht e he
        · rw [he]; rfl
        · rw [he]; rfl
      · rw [h.2.2]
        intro e he
        simp only [List.mem_append, List.mem_cons, List.mem_singleton, List.not_mem_nil,
          or_false] at he
        rcases he with he | he | he | he | he
        · exact ht e he
        · rw [he]; rfl
        · rw [he]; rfl
        · rw [he]; rfl
        · rw [he]; rfl
      · rw [h.2.2]
        simp only
        split
        · apply ih
          intro e he
          simp only [List.mem_append, List.mem_cons, List.mem_singleton, List.not_mem_nil,
            or_false] at he
          rcases he with (he | he | he | he | he) | he
          · exact ht e he
          · rw [he]; rfl
          · rw [he]; rfl
          · rw [he]; rfl
          · rw [he]; rfl
          · rw [he]; rfl
        · intro e he
          simp only [List.mem_append, List.mem_cons, List.mem_singleton, List.not_mem_nil,
            or_false] at he
          rcases he with (he | he | he | he | he) | he
          · exact ht e he
          · rw [he]; rfl
          · rw [he]; rfl
          · rw [he]; rfl
          · rw [he]; rfl
          · rw [he]; rfl
    · simp only [hf, Bool.not_false, if_true]
      exact ih self t ht

/-! ## Discovery without an installed bridge -/

theorem loadAll_entry_uninstalled {σ : Type} (b : Bridge σ) (directoryPath : Path)
    (entry : DirEntry) (st : Machine σ) (h : st.loader.m_methodExists = none) :
    (DotNetLoader.loadAll.entry b directoryPath entry st).2 = st := by
  unfold DotNetLoader.loadAll.entry
  by_cases h1 : entry.is_directory = true
  · by_cases h2 : "Main.dll" ∈ entry.children
    · simp [h1, h2, callMethodExists, h]
    · simp [h1, h2]
  · simp [h1]

theorem loadAll_entries_uninstalled {σ : Type} (b : Bridge σ) (directoryPath : Path)
    (entries : List DirEntry) (st : Machine σ) (h : st.loader.m_methodExists = none) :
    (DotNetLoader.loadAll.entries b directoryPath entries st).2 = st := by
  induction entries with
  | nil => rfl
  | cons entry rest ih =>
    have he := loadAll_entry_uninstalled b directoryPath entry st h
    rw [DotNetLoader.loadAll.entries]
    rcases hr : DotNetLoader.loadAll.entry b directoryPath entry st with ⟨o, st1⟩
    rw [hr] at he
    simp only at he
    subst he
    cases o with
    | returned v => simpa using ih
    | raised what => rfl
    | fault => rfl

theorem loadAll_roots_uninstalled {σ : Type} (b : Bridge σ) (roots : List ScriptRoot)
    (st : Machine σ) (h : st.loader.m_methodExists = none) :
    (DotNetLoader.loadAll.roots b roots st).2.1 = st := by
  induction roots with
  | nil => rfl
  | cons root rest ih =>
    have he := loadAll_entries_uninstalled b
      (Path.join (Path.join root.imhexPath "custom") "dotnet")
      root.dotnet.afterCreate.listing st h
    rw [DotNetLoader.loadAll.roots]
    simp only
    rcases hr : DotNetLoader.loadAll.entries b
      (Path.join (Path.join root.imhexPath "custom") "dotnet")
      root.dotnet.afterCreate.listing st with ⟨o, st1⟩
    rw [hr] at he
    simp only at he
    subst he
    cases o with
    | returned v => simpa using ih
    | raised what => rfl
    | fault => rfl

theorem loadAll_uninstalled {σ : Type} (b : Bridge σ) (roots : List ScriptRoot)
    (st : Machine σ) (h : st.loader.m_methodExists = none) :
    (DotNetLoader.loadAll b roots st).machine.trace = st.trace := by
  have hr := loadAll_roots_uninstalled b roots
    { st with loader := st.loader.clearScripts } h
  unfold DotNetLoader.loadAll
  simp only
  rcases hx : DotNetLoader.loadAll.roots b roots
    { st with loader := st.loader.clearScripts } with ⟨o, st1, roots1⟩
  rw [hx] at hr
  simp only at hr
  subst hr
  cases o <;> rfl

theorem invoke_uninstalled {σ : Type} (b : Bridge σ) (st : Machine σ) (action : RunAction)
    (h : st.loader.m_runMethod = none) :
    (action.invoke b st).2 = st := by
  cases action with
  | runMain scriptPath => simp [RunAction.invoke, callRunMethod, h]
  | noop => rfl

/-- C2 (counterexample): a bridge module is found and the initialize-context call
returns status `0x80008093` with a null context; `initialize` does not return
false, the exception of `getLoadAssemblyFunction` leaves it. -/
theorem C2_initialize_raises_on_null_context :
    hostWithNullContext.fileExists "/usr/lib/imhex/plugins/AssemblyLoader.dll" = true ∧
    Event.hostfxr_initialize_for_runtime_config
        "/usr/lib/imhex/plugins/AssemblyLoader.runtimeconfig.json" (-2147450733) nullptr ∈
      ( DotNetLoader.initialize hostWithNullContext .initial .fresh).trace ∧
    ( DotNetLoader.initialize hostWithNullContext .initial .fresh).outcome =
      .raised "Failed to initialize command line 0x80008093" ∧
    ( DotNetLoader.initialize hostWithNullContext .initial .fresh).outcome ≠ .returned false := by
  decide

/-- C2 (amended): when an initialize-context call of a run of `initialize` comes back
with a status greater than 2 or a null context, or a get-delegate call with a
non-zero status or a null delegate, `initialize` raises the exception of
`getLoadAssemblyFunction`; `m_runMethod` and `m_methodExists` are left as they were,
the run makes no call to the bridge entry point, and with both members empty
neither a later `loadAll` nor a run action makes one. -/
theorem C2_bootstrap_failure_raises (host : Host) (table : HostingFunctionTable)
    (self : DotNetLoader)
    (h : ∃ e ∈ ( DotNetLoader.initialize host table self).trace, e.isBootstrapFailure = true) :
    (∃ what, ( DotNetLoader.initialize host table self).outcome = .raised what) ∧
    ( DotNetLoader.initialize host table self).loader.m_runMethod = self.m_runMethod ∧
    ( DotNetLoader.initialize host table self).loader.m_methodExists = self.m_methodExists ∧
    (∀ e ∈ ( DotNetLoader.initialize host table self).trace, e.isEntryPoint = false) ∧
    (self.m_runMethod = none → self.m_methodExists = none →
      ∀ (σ : Type) (b : Bridge σ) (roots : List ScriptRoot) (st : Machine σ),
        st.loader = ( DotNetLoader.initialize host table self).loader →
        (DotNetLoader.loadAll b roots st).machine.trace = st.trace ∧
        ∀ action : RunAction, (action.invoke b st).2.trace = st.trace) := by
  have hclean := loadHostfxr_trace host table
  have key : (∃ what, ( DotNetLoader.initialize host table self).outcome = .raised what) ∧
      ( DotNetLoader.initialize host table self).loader.m_runMethod = self.m_runMethod ∧
      ( DotNetLoader.initialize host table self).loader.m_methodExists = self.m_methodExists ∧
      (∀ e ∈ ( DotNetLoader.initialize host table self).trace, e.isEntryPoint = false) := by
    obtain ⟨e, he, hfail⟩ := h
    unfold DotNetLoader.initialize at he ⊢
    cases hO : (loadHostfxr host table).outcome with
    | fault =>
      simp only [hO] at he
      rw [(hclean e he).1] at hfail
      exact absurd hfail (by decide)
    | raised what =>
      simp only [hO] at he
      rw [(hclean e he).1] at hfail
      exact absurd hfail (by decide)
    | returned ok =>
      cases ok with
      | false =>
        simp only [hO, Bool.not_false, if_true] at he
        rw [(hclean e he).1] at hfail
        exact absurd hfail (by decide)
      | true =>
        have hc := loadHostfxr_returned_true host table hO
        simp only [hO, Bool.not_true, Bool.false_eq_true, if_false] at he ⊢
        have hne := initialize_loop_no_entryPoint host (loadHostfxr host table).table hc
          host.pluginPaths self (loadHostfxr host table).trace (fun e he => (hclean e he).2)
        rcases initialize_loop_cases host (loadHostfxr host table).table hc host.pluginPaths
          self (loadHostfxr host table).trace (fun e he => (hclean e he).1) with hr | hr
        · exact ⟨hr.1, hr.2.1, hr.2.2, hne⟩
        · rw [hr.2 e he] at hfail
          exact absurd hfail (by decide)
  refine ⟨key.1, key.2.1, key.2.2.1, key.2.2.2, ?_⟩
  intro hR hE σ b roots st hst
  have h1 : st.loader.m_methodExists = none := by rw [hst, key.2.2.1, hE]
  have h2 : st.loader.m_runMethod = none := by rw [hst, key.2.1, hR]
  refine ⟨loadAll_uninstalled b roots st h1, ?_⟩
  intro action
  rw [invoke_uninstalled b st action h2]

/-- C2 (witness): the run of `initialize` on the host whose initialize-context call
gives a null context raises and leaves both members empty. -/
theorem C2_bootstrap_failure_raises_witness :
    (∃ e ∈ ( DotNetLoader.initialize hostWithNullContext .initial .fresh).trace,
      e.isBootstrapFailure = true) ∧
    (∃ what, ( DotNetLoader.initialize hostWithNullContext .initial .fresh).outcome
      = .raised what) ∧
    ( DotNetLoader.initialize hostWithNullContext .initial .fresh).loader.m_runMethod = none ∧
    ( DotNetLoader.initialize hostWithNullContext .initial .fresh).loader.m_methodExists = none :=
  ⟨⟨Event.hostfxr_initialize_for_runtime_config
      "/usr/lib/imhex/plugins/AssemblyLoader.runtimeconfig.json" (-2147450733) nullptr,
      by decide, by decide⟩,
   (C2_bootstrap_failure_raises hostWithNullContext .initial .fresh
      ⟨Event.hostfxr_initialize_for_runtime_config
        "/usr/lib/imhex/plugins/AssemblyLoader.runtimeconfig.json" (-2147450733) nullptr,
        by decide, by decide⟩).1,
   (C2_bootstrap_failure_raises hostWithNullContext .initial .fresh
      ⟨Event.hostfxr_initialize_for_runtime_config
        "/usr/lib/imhex/plugins/AssemblyLoader.runtimeconfig.json" (-2147450733) nullptr,
        by decide, by decide⟩).2.1,
   (C2_bootstrap_failure_raises hostWithNullContext .initial .fresh
      ⟨Event.hostfxr_initialize_for_runtime_config
        "/usr/lib/imhex/plugins/AssemblyLoader.runtimeconfig.json" (-2147450733) nullptr,
        by decide, by decide⟩).2.2.1⟩

/-! ## Discovery with an installed bridge -/

theorem stepCandidate_members {σ : Type} (b : Bridge σ) (existsPtr runPtr : Ptr)
    (c : Candidate) (st : Machine σ) :
    (stepCandidate b existsPtr runPtr c st).loader.m_methodExists = st.loader.m_methodExists ∧
    (stepCandidate b existsPtr runPtr c st).loader.m_runMethod = st.loader.m_runMethod := by
  unfold stepCandidate
  simp only [methodExistsLambda, runMethodLambda, callEntryPoint]
  split <;> exact ⟨rfl, rfl⟩

theorem runCandidates_members {σ : Type} (b : Bridge σ) (existsPtr runPtr : Ptr)
    (cs : List Candidate) :
    ∀ st : Machine σ,
      (runCandidates b existsPtr runPtr cs st).loader.m_methodExists
        = st.loader.m_methodExists ∧
      (runCandidates b existsPtr runPtr cs st).loader.m_runMethod = st.loader.m_runMethod := by
  induction cs with
  | nil => intro st; exact ⟨rfl, rfl⟩
  | cons c cs ih =>
    intro st
    rw [runCandidates]
    have h1 := ih (stepCandidate b existsPtr runPtr c st)
    have h2 := stepCandidate_members b existsPtr runPtr c st
    exact ⟨h1.1.trans h2.1, h1.2.trans h2.2⟩

theorem runCandidates_append {σ : Type} (b : Bridge σ) (existsPtr runPtr : Ptr)
    (cs ds : List Candidate) :
    ∀ st : Machine σ,
      runCandidates b existsPtr runPtr (cs ++ ds) st =
        runCandidates b existsPtr runPtr ds (runCandidates b existsPtr runPtr cs st) := by
  induction cs with
  | nil => intro st; rfl
  | cons c cs ih =>
    intro st
    simp only [List.cons_append, runCandidates]
    exact ih _

theorem callMethodExists_installed {σ : Type} (b : Bridge σ) (existsPtr : Ptr)
    (st : Machine σ) (methodName : String) (path : Path)
    (hE : st.loader.m_methodExists = some existsPtr) :
    callMethodExists b st methodName path =
      (.returned (methodExistsLambda b existsPtr st methodName path).1,
        (methodExistsLambda b existsPtr st methodName path).2) := by
  simp [callMethodExists, hE]

theorem callRunMethod_installed {σ : Type} (b : Bridge σ) (runPtr : Ptr)
    (st : Machine σ) (methodName : String) (keepLoaded : Bool) (path : Path)
    (hR : st.loader.m_runMethod = some runPtr) :
    callRunMethod b st methodName keepLoaded path =
      (.returned (runMethodLambda b runPtr st methodName keepLoaded path).1,
        (runMethodLambda b runPtr st methodName keepLoaded path).2) := by
  simp [callRunMethod, hR]

theorem methodExistsLambda_loader {σ : Type} (b : Bridge σ) (existsPtr : Ptr)
    (st : Machine σ) (methodName : String) (path : Path) :
    (methodExistsLambda b existsPtr st methodName path).2.loader = st.loader := rfl

theorem machine_with_scripts_nil {σ : Type} (st : Machine σ) :
    ({ st with loader := { st.loader with scripts := st.loader.scripts ++ [] } } : Machine σ)
      = st := by
  obtain ⟨⟨ps, rm, me, scripts⟩, bs, tr⟩ := st
  simp

theorem loadAll_entry_candidate {σ : Type} (b : Bridge σ) (existsPtr runPtr : Ptr)
    (directoryPath : Path) (entry : DirEntry) (st : Machine σ)
    (hE : st.loader.m_methodExists = some existsPtr)
    (hR : st.loader.m_runMethod = some runPtr)
    (h1 : entry.is_directory = true) (h2 : entry.children.contains "Main.dll" = true) :
    DotNetLoader.loadAll.entry b directoryPath entry st =
      (.returned (), stepCandidate b existsPtr runPtr
        ⟨Path.join directoryPath entry.filename,
          Path.join (Path.join directoryPath entry.filename) "Main.dll"⟩ st) := by
  unfold DotNetLoader.loadAll.entry stepCandidate
  simp only [h1, h2, Bool.not_true, Bool.false_eq_true, if_false]
  rw [callMethodExists_installed b existsPtr st _ _ hE]
  simp only []
  rw [callMethodExists_installed b existsPtr _ _ _
    ((methodExistsLambda_loader b existsPtr st _ _).symm ▸ hE)]
  simp only []
  cases hM : (methodExistsLambda b existsPtr st "Main"
      (Path.join (Path.join directoryPath entry.filename) "Main.dll")).1 <;>
  cases hO : (methodExistsLambda b existsPtr
      (methodExistsLambda b existsPtr st "Main"
        (Path.join (Path.join directoryPath entry.filename) "Main.dll")).2 "OnLoad"
      (Path.join (Path.join directoryPath entry.filename) "Main.dll")).1
  · simp only [Bool.false_eq_true, if_false, expectedDescriptors, machine_with_scripts_nil]
  · simp only [Bool.false_eq_true, if_false, if_true, expectedDescriptors]
    rw [callRunMethod_installed b runPtr]
    · rfl
    · exact hR
  · simp only [Bool.false_eq_true, if_false, if_true, expectedDescriptors]
    rfl
  · simp only [Bool.false_eq_true, if_false, if_true, expectedDescriptors]
    rw [callRunMethod_installed b runPtr]
    · rfl
    · exact hR

theorem loadAll_entry_installed {σ : Type} (b : Bridge σ) (existsPtr runPtr : Ptr)
    (directoryPath : Path) (entry : DirEntry) (st : Machine σ)
    (hE : st.loader.m_methodExists = some existsPtr)
    (hR : st.loader.m_runMethod = some runPtr) :
    DotNetLoader.loadAll.entry b directoryPath entry st =
      (.returned (), runCandidates b existsPtr runPtr (candidatesOfDir directoryPath [entry]) st) := by
  by_cases h1 : entry.is_directory = true
  · by_cases h2 : entry.children.contains "Main.dll" = true
    · have hc : candidatesOfDir directoryPath [entry] =
          [⟨Path.join directoryPath entry.filename,
            Path.join (Path.join directoryPath entry.filename) "Main.dll"⟩] := by
        simp only [candidatesOfDir, List.filter_cons, h1, h2, Bool.and_self, if_true,
          List.filter_nil, List.map_cons, List.map_nil]
      rw [hc, loadAll_entry_candidate b existsPtr runPtr directoryPath entry st hE hR h1 h2]
      rfl
    · have hc : candidatesOfDir directoryPath [entry] = [] := by
        simp only [candidatesOfDir, List.filter_cons, h1, h2, Bool.and_false,
          Bool.false_eq_true, if_false, List.filter_nil, List.map_nil]
      rw [hc]
      unfold DotNetLoader.loadAll.entry
      simp only [h1, h2, Bool.not_true, Bool.false_eq_true, Bool.not_false, if_true, if_false,
        runCandidates]
  · have hc : candidatesOfDir directoryPath [entry] = [] := by
      simp only [candidatesOfDir, List.filter_cons, h1, Bool.false_and,
        Bool.false_eq_true, if_false, List.filter_nil, List.map_nil]
    rw [hc]
    unfold DotNetLoader.loadAll.entry
    simp only [h1, Bool.not_false, if_true, runCandidates]

theorem candidatesOfDir_cons (directoryPath : Path) (entry : DirEntry) (rest : List DirEntry) :
    candidatesOfDir directoryPath (entry :: rest) =
      candidatesOfDir directoryPath [entry] ++ candidatesOfDir directoryPath rest := by
  unfold candidatesOfDir
  rw [← List.map_append, ← List.filter_append]
  rfl

theorem listing_afterCreate (d : DirState) : d.afterCreate.listing = d.listing := by
  cases d with
  | absent creatable => cases creatable <;> rfl
  | present entries => rfl

theorem candidates_afterCreate (roots : List ScriptRoot) :
    candidates (roots.map ScriptRoot.afterCreate) = candidates roots := by
  induction roots with
  | nil => rfl
  | cons root rest ih =>
    simp only [List.map_cons, candidates, ih]
    congr 1
    simp only [ScriptRoot.afterCreate, ScriptRoot.directoryPath, listing_afterCreate]

theorem loadAll_entries_installed {σ : Type} (b : Bridge σ) (existsPtr runPtr : Ptr)
    (directoryPath : Path) (entries : List DirEntry) :
    ∀ st : Machine σ, st.loader.m_methodExists = some existsPtr →
      st.loader.m_runMethod = some runPtr →
      DotNetLoader.loadAll.entries b directoryPath entries st =
        (.returned (),
          runCandidates b existsPtr runPtr (candidatesOfDir directoryPath entries) st) := by
  induction entries with
  | nil => intro st _ _; rfl
  | cons entry rest ih =>
    intro st hE hR
    have hm := runCandidates_members b existsPtr runPtr
      (candidatesOfDir directoryPath [entry]) st
    rw [DotNetLoader.loadAll.entries,
      loadAll_entry_installed b existsPtr runPtr directoryPath entry st hE hR]
    simp only []
    rw [ih _ (hm.1.trans hE) (hm.2.trans hR), candidatesOfDir_cons directoryPath entry rest,
      runCandidates_append]

theorem loadAll_roots_installed {σ : Type} (b : Bridge σ) (existsPtr runPtr : Ptr)
    (roots : List ScriptRoot) :
    ∀ st : Machine σ, st.loader.m_methodExists = some existsPtr →
      st.loader.m_runMethod = some runPtr →
      DotNetLoader.loadAll.roots b roots st =
        (.returned (), runCandidates b existsPtr runPtr (candidates roots) st,
          roots.map ScriptRoot.afterCreate) := by
  induction roots with
  | nil => intro st _ _; rfl
  | cons root rest ih =>
    intro st hE hR
    have hm := runCandidates_members b existsPtr runPtr
      (candidatesOfDir root.directoryPath root.dotnet.listing) st
    rw [DotNetLoader.loadAll.roots]
    simp only []
    rw [loadAll_entries_installed b existsPtr runPtr _ _ st hE hR, listing_afterCreate]
    simp only []
    rw [show Path.join (Path.join root.imhexPath "custom") "dotnet" = root.directoryPath from rfl,
      ih _ (hm.1.trans hE) (hm.2.trans hR)]
    simp only [candidates, runCandidates_append, List.map_cons, ScriptRoot.afterCreate]

/-- With both members holding a lambda, `loadAll` returns true, having cleared the
registry and handled the candidates of the script roots in enumeration order. -/
theorem loadAll_installed {σ : Type} (b : Bridge σ) (existsPtr runPtr : Ptr)
    (roots : List ScriptRoot) (st : Machine σ)
    (hE : st.loader.m_methodExists = some existsPtr)
    (hR : st.loader.m_runMethod = some runPtr) :
    DotNetLoader.loadAll b roots st =
      ⟨.returned true,
        runCandidates b existsPtr runPtr (candidates roots)
          { st with loader := st.loader.clearScripts },
        roots.map ScriptRoot.afterCreate⟩ := by
  unfold DotNetLoader.loadAll
  simp only []
  rw [loadAll_roots_installed b existsPtr runPtr roots
    { st with loader := st.loader.clearScripts } hE hR]

/-- What one candidate adds: two `CHECK` calls, then the `LOAD` call for `OnLoad`
when the second came back with 0, and the descriptors of the specification. -/
theorem stepCandidate_spec {σ : Type} (b : Bridge σ) (existsPtr runPtr : Ptr)
    (c : Candidate) (st : Machine σ) :
    ∃ (main onLoad loaded : Int) (s : σ) (new : List Event),
      main = (b.entryPoint existsPtr st.bridge
        (methodExistsString "Main" (toUTF8String c.scriptPath))
        (sizeArgument (methodExistsString "Main" (toUTF8String c.scriptPath)))).1 ∧
      onLoad = (b.entryPoint existsPtr s
        (methodExistsString "OnLoad" (toUTF8String c.scriptPath))
        (sizeArgument (methodExistsString "OnLoad" (toUTF8String c.scriptPath)))).1 ∧
      new =
          (Event.entryPoint existsPtr (methodExistsString "Main" (toUTF8String c.scriptPath))
              (sizeArgument (methodExistsString "Main" (toUTF8String c.scriptPath))) main ::
            Event.entryPoint existsPtr (methodExistsString "OnLoad" (toUTF8String c.scriptPath))
              (sizeArgument (methodExistsString "OnLoad" (toUTF8String c.scriptPath))) onLoad ::
            (if onLoad = 0 then
              [Event.entryPoint runPtr (runMethodString "OnLoad" true (toUTF8String c.scriptPath))
                (sizeArgument (runMethodString "OnLoad" true (toUTF8String c.scriptPath))) loaded]
             else [])) ∧
      (stepCandidate b existsPtr runPtr c st).trace = st.trace ++ new ∧
      (stepCandidate b existsPtr runPtr c st).loader.scripts =
        st.loader.scripts ++ expectedDescriptors c (decide (main = 0)) (decide (onLoad = 0)) := by
  refine ⟨(b.entryPoint existsPtr st.bridge
      (methodExistsString "Main" (toUTF8String c.scriptPath))
      (sizeArgument (methodExistsString "Main" (toUTF8String c.scriptPath)))).1,
    (b.entryPoint existsPtr
      (b.entryPoint existsPtr st.bridge
        (methodExistsString "Main" (toUTF8String c.scriptPath))
        (sizeArgument (methodExistsString "Main" (toUTF8String c.scriptPath)))).2
      (methodExistsString "OnLoad" (toUTF8String c.scriptPath))
      (sizeArgument (methodExistsString "OnLoad" (toUTF8String c.scriptPath)))).1,
    (b.entryPoint runPtr
      (b.entryPoint existsPtr
        (b.entryPoint existsPtr st.bridge
          (methodExistsString "Main" (toUTF8String c.scriptPath))
          (sizeArgument (methodExistsString "Main" (toUTF8String c.scriptPath)))).2
        (methodExistsString "OnLoad" (toUTF8String c.scriptPath))
        (sizeArgument (methodExistsString "OnLoad" (toUTF8String c.scriptPath)))).2
      (runMethodString "OnLoad" true (toUTF8String c.scriptPath))
      (sizeArgument (runMethodString "OnLoad" true (toUTF8String c.scriptPath)))).1,
    (b.entryPoint existsPtr st.bridge
      (methodExistsString "Main" (toUTF8String c.scriptPath))
      (sizeArgument (methodExistsString "Main" (toUTF8String c.scriptPath)))).2,
    _, rfl, rfl, rfl, ?_, ?_⟩
  · unfold stepCandidate
    simp only [methodExistsLambda, runMethodLambda, callEntryPoint, toUTF8String]
    split
    · rename_i h
      simp only [decide_eq_true_eq] at h
      simp [h]
    · rename_i h
      simp only [decide_eq_true_eq] at h
      simp [h]
  · unfold stepCandidate
    simp only [methodExistsLambda, runMethodLambda, callEntryPoint, toUTF8String]
    split <;> rfl

theorem isCheckRequest_methodExistsString (m p : String) :
    isCheckRequest (methodExistsString m p) = true := by
  simp [isCheckRequest, methodExistsString, String.data_append, List.isPrefixOf]

theorem isCheckRequest_runMethodString (m : String) (k : Bool) (p : String) :
    isCheckRequest (runMethodString m k p) = false := by
  cases k <;> simp [isCheckRequest, runMethodString, String.data_append, List.isPrefixOf]

theorem checkAnswers_append (t u : List Event) :
    checkAnswers (t ++ u) = checkAnswers t ++ checkAnswers u := by
  induction t with
  | nil => rfl
  | cons e t ih =>
    cases e with
    | entryPoint fn data size status =>
      by_cases h : isCheckRequest data = true <;> simp [checkAnswers, h, ih]
    | _ => simp [checkAnswers, ih]

/-- The registry and the `CHECK` calls after a list of candidates. -/
theorem runCandidates_registry {σ : Type} (b : Bridge σ) (existsPtr runPtr : Ptr)
    (cs : List Candidate) :
    ∀ st : Machine σ, ∃ new : List Event,
      (runCandidates b existsPtr runPtr cs st).trace = st.trace ++ new ∧
      (checkAnswers new).map Prod.fst = expectedChecks cs ∧
      (runCandidates b existsPtr runPtr cs st).loader.scripts =
        st.loader.scripts ++ expectedRegistry cs ((checkAnswers new).map Prod.snd) := by
  induction cs with
  | nil =>
    intro st
    exact ⟨[], by simp [runCandidates], rfl, by simp [runCandidates, expectedRegistry]⟩
  | cons c cs ih =>
    intro st
    obtain ⟨main, onLoad, loaded, s, step, _, _, hd, ht, hs⟩ :=
      stepCandidate_spec b existsPtr runPtr c st
    obtain ⟨new, hn, hk, hr⟩ := ih (stepCandidate b existsPtr runPtr c st)
    have hca : checkAnswers step =
        [(methodExistsString "Main" (toUTF8String c.scriptPath), main),
         (methodExistsString "OnLoad" (toUTF8String c.scriptPath), onLoad)] := by
      rw [hd]
      by_cases h0 : onLoad = 0
      · simp [h0, checkAnswers, isCheckRequest_methodExistsString,
          isCheckRequest_runMethodString]
      · simp [h0, checkAnswers, isCheckRequest_methodExistsString]
    refine ⟨step ++ new, ?_, ?_, ?_⟩
    · rw [runCandidates, hn, ht, List.append_assoc]
    · rw [checkAnswers_append, List.map_append, hk, hca]
      rfl
    · rw [runCandidates, hr, hs, checkAnswers_append, List.map_append, List.append_assoc, hca]
      rfl

theorem runMethodString_onLoad (p : String) :
    runMethodString "OnLoad" true p = "LOAD||OnLoad||" ++ p := by
  apply String.ext
  simp [runMethodString, String.data_append]

theorem methodExistsString_main (p : String) :
    methodExistsString "Main" p = "CHECK||Main||" ++ p := by
  apply String.ext
  simp [methodExistsString, String.data_append]

theorem methodExistsString_onLoad (p : String) :
    methodExistsString "OnLoad" p = "CHECK||OnLoad||" ++ p := by
  apply String.ext
  simp [methodExistsString, String.data_append]

theorem runMethodString_main (p : String) :
    runMethodString "Main" false p = "EXEC||Main||" ++ p := by
  apply String.ext
  simp [runMethodString, String.data_append]

theorem runMethodString_path_injective (m : String) (k : Bool) (p q : String)
    (h : runMethodString m k p = runMethodString m k q) : p = q := by
  have hd := congrArg String.data h
  apply String.ext
  cases k <;> simpa [runMethodString, String.data_append] using hd

/-- The requests a list of candidates adds are `CHECK` requests and `LOAD` requests
for `OnLoad`. -/
theorem runCandidates_requests {σ : Type} (b : Bridge σ) (existsPtr runPtr : Ptr)
    (cs : List Candidate) :
    ∀ st : Machine σ, ∃ new : List Event,
      (runCandidates b existsPtr runPtr cs st).trace = st.trace ++ new ∧
      ∀ x ∈ requests new,
        (∃ m q, x = methodExistsString m q) ∨ (∃ q, x = runMethodString "OnLoad" true q) := by
  induction cs with
  | nil =>
    intro st
    exact ⟨[], by simp [runCandidates], by simp [requests]⟩
  | cons c cs ih =>
    intro st
    obtain ⟨main, onLoad, loaded, s, step, _, _, hd, ht, _⟩ :=
      stepCandidate_spec b existsPtr runPtr c st
    obtain ⟨new, hn, hx⟩ := ih (stepCandidate b existsPtr runPtr c st)
    refine ⟨step ++ new, ?_, ?_⟩
    · rw [runCandidates, hn, ht, List.append_assoc]
    · intro x hmem
      rw [requests_append, List.mem_append] at hmem
      rcases hmem with hmem | hmem
      · rw [hd] at hmem
        by_cases h0 : onLoad = 0
        · simp only [h0, if_true, requests, List.mem_cons, List.mem_singleton,
            List.not_mem_nil, or_false] at hmem
          rcases hmem with hmem | hmem | hmem
          · exact Or.inl ⟨_, _, hmem⟩
          · exact Or.inl ⟨_, _, hmem⟩
          · exact Or.inr ⟨_, hmem⟩
        · simp only [h0, if_false, requests, List.mem_cons, List.mem_singleton,
            List.not_mem_nil, or_false] at hmem
          rcases hmem with hmem | hmem
          · exact Or.inl ⟨_, _, hmem⟩
          · exact Or.inl ⟨_, _, hmem⟩
      · exact hx x hmem

/-- How often the `LOAD` request for `OnLoad` on the path `p` is sent, when the
bridge reports `OnLoad` present for `p` in every state: once per candidate with
that path. -/
theorem runCandidates_count {σ : Type} (b : Bridge σ) (existsPtr runPtr : Ptr) (p : Path)
    (hOn : ∀ s, (b.entryPoint existsPtr s
      (methodExistsString "OnLoad" (toUTF8String p))
      (sizeArgument (methodExistsString "OnLoad" (toUTF8String p)))).1 = 0)
    (cs : List Candidate) :
    ∀ st : Machine σ,
      (requests (runCandidates b existsPtr runPtr cs st).trace).count
          (runMethodString "OnLoad" true (toUTF8String p)) =
        (requests st.trace).count (runMethodString "OnLoad" true (toUTF8String p)) +
          (cs.map (fun c => c.scriptPath)).count p := by
  induction cs with
  | nil => intro st; simp [runCandidates]
  | cons c cs ih =>
    intro st
    obtain ⟨main, onLoad, loaded, s, step, _, hO, hd, ht, _⟩ :=
      stepCandidate_spec b existsPtr runPtr c st
    have h1 : methodExistsString "Main" (toUTF8String c.scriptPath) ≠
        runMethodString "OnLoad" true (toUTF8String p) :=
      methodExistsString_ne_runMethodString _ _ _ _ _
    have h2 : methodExistsString "OnLoad" (toUTF8String c.scriptPath) ≠
        runMethodString "OnLoad" true (toUTF8String p) :=
      methodExistsString_ne_runMethodString _ _ _ _ _
    have hstep : (requests step).count (runMethodString "OnLoad" true (toUTF8String p)) =
        if c.scriptPath = p then 1 else 0 := by
      by_cases hp : c.scriptPath = p
      · have h0 : onLoad = 0 := by rw [hO, hp]; exact hOn _
        subst hp
        rw [hd]
        simp [h0, requests, List.count_cons, h1, h2]
      · have h3 : runMethodString "OnLoad" true (toUTF8String c.scriptPath) ≠
            runMethodString "OnLoad" true (toUTF8String p) := fun h =>
          hp (runMethodString_path_injective _ _ _ _ h)
        rw [hd]
        by_cases h0 : onLoad = 0
        · simp [h0, requests, List.count_cons, h1, h2, h3, hp]
        · simp [h0, requests, List.count_cons, h1, h2, hp]
    rw [runCandidates, ih, ht, requests_append, List.count_append, hstep, List.map_cons,
      List.count_cons]
    by_cases hp : c.scriptPath = p
    · simp only [hp, if_true, beq_self_eq_true]
      omega
    · have hp' : (c.scriptPath == p) = false := by simpa using hp
      simp only [hp, hp', if_false, Bool.false_eq_true]
      omega

/-- A candidate whose `Main` the bridge reports present in every state gets its
runnable descriptor registered. -/
theorem runCandidates_registered {σ : Type} (b : Bridge σ) (existsPtr runPtr : Ptr)
    (c : Candidate)
    (hMain : ∀ s, (b.entryPoint existsPtr s
      (methodExistsString "Main" (toUTF8String c.scriptPath))
      (sizeArgument (methodExistsString "Main" (toUTF8String c.scriptPath)))).1 = 0)
    (cs : List Candidate) :
    ∀ st : Machine σ, c ∈ cs →
      (⟨Path.stem c.entryPath, false, .runMain c.scriptPath⟩ : Script) ∈
        (runCandidates b existsPtr runPtr cs st).loader.scripts := by
  induction cs with
  | nil => intro st h; simp at h
  | cons d cs ih =>
    intro st h
    rw [runCandidates]
    rcases List.mem_cons.1 h with h | h
    · subst h
      obtain ⟨main, onLoad, loaded, s, step, hM, _, _, _, hs⟩ :=
        stepCandidate_spec b existsPtr runPtr c st
      obtain ⟨new, _, _, hr⟩ :=
        runCandidates_registry b existsPtr runPtr cs (stepCandidate b existsPtr runPtr c st)
      have h0 : main = 0 := by rw [hM]; exact hMain _
      rw [hr, hs, h0]
      simp [expectedDescriptors]
    · exact ih _ h

/-- One run of `loadAll` with both members holding a lambda. -/
theorem loadAll_summary {σ : Type} (b : Bridge σ) (existsPtr runPtr : Ptr)
    (roots : List ScriptRoot) (st : Machine σ)
    (hE : st.loader.m_methodExists = some existsPtr)
    (hR : st.loader.m_runMethod = some runPtr) :
    (DotNetLoader.loadAll b roots st).outcome = .returned true ∧
    (DotNetLoader.loadAll b roots st).roots = roots.map ScriptRoot.afterCreate ∧
    (DotNetLoader.loadAll b roots st).machine.loader.m_methodExists = some existsPtr ∧
    (DotNetLoader.loadAll b roots st).machine.loader.m_runMethod = some runPtr ∧
    (DotNetLoader.loadAll b roots st).machine.trace =
      st.trace ++ (DotNetLoader.loadAll b roots st).machine.trace.drop st.trace.length ∧
    (checkAnswers ((DotNetLoader.loadAll b roots st).machine.trace.drop st.trace.length)).map
      Prod.fst = expectedChecks (candidates roots) ∧
    (DotNetLoader.loadAll b roots st).machine.loader.scripts =
      expectedRegistry (candidates roots)
        ((checkAnswers ((DotNetLoader.loadAll b roots st).machine.trace.drop
          st.trace.length)).map Prod.snd) := by
  rw [loadAll_installed b existsPtr runPtr roots st hE hR]
  obtain ⟨new, hn, hk, hr⟩ := runCandidates_registry b existsPtr runPtr (candidates roots)
    { st with loader := st.loader.clearScripts }
  have hm := runCandidates_members b existsPtr runPtr (candidates roots)
    { st with loader := st.loader.clearScripts }
  simp only [] at hn hr hm ⊢
  have hdrop : (st.trace ++ new).drop st.trace.length = new := List.drop_left _ _
  refine ⟨trivial, trivial, hm.1.trans hE, hm.2.trans hR, ?_, ?_, ?_⟩
  · rw [hn, hdrop]
  · rw [hn, hdrop, hk]
  · rw [hn, hdrop, hr]
    simp [DotNetLoader.clearScripts]

/-! ## Script discovery -/

/-- C10 (failing input): for the script directory `Foo.Bar`, whose `Main.dll`
exposes `Main`, `loadAll` registers the name `Foo`, the stem of the directory path,
not the directory name `Foo.Bar`. -/
theorem C10_dotted_directory_name :
    candidates dottedRoots =
      [⟨"/scripts/custom/dotnet/Foo.Bar", "/scripts/custom/dotnet/Foo.Bar/Main.dll"⟩] ∧
    Path.filename "/scripts/custom/dotnet/Foo.Bar" = "Foo.Bar" ∧
    (DotNetLoader.loadAll agreeingBridge dottedRoots initialisedMachine).machine.loader.scripts =
      [⟨"Foo", false, .runMain "/scripts/custom/dotnet/Foo.Bar/Main.dll"⟩] ∧
    (DotNetLoader.loadAll agreeingBridge dottedRoots initialisedMachine).machine.loader.scripts.map
      (fun s => s.name) ≠ ["Foo.Bar"] := by
  decide

/-- C5 (amended): for a candidate whose `Main.dll` exposes `Main` and `OnLoad` (the
bridge answers both `CHECK` requests on its path with 0), one run of `loadAll`
sends the request `LOAD||OnLoad||<path>` once for each time the path is enumerated,
so exactly once when the enumerated paths are pairwise distinct, no `EXEC` request
for `OnLoad` on that path and no `LOAD` or `EXEC` request for `Main` at all (the
loop body for its directory sends the two `CHECK` requests and that one `LOAD`
request, nothing else), and registers the runnable descriptor; each call of its run
action sends exactly the one request `EXEC||Main||<path>` and returns nothing. -/
theorem C5_onLoad_once_main_per_run {σ : Type} (b : Bridge σ) (existsPtr runPtr : Ptr)
    (roots : List ScriptRoot) (st : Machine σ)
    (hE : st.loader.m_methodExists = some existsPtr)
    (hR : st.loader.m_runMethod = some runPtr)
    (c : Candidate) (hc : c ∈ candidates roots)
    (hMain : ∀ s, (b.entryPoint existsPtr s
      (methodExistsString "Main" c.scriptPath)
      (sizeArgument (methodExistsString "Main" c.scriptPath))).1 = 0)
    (hOnLoad : ∀ s, (b.entryPoint existsPtr s
      (methodExistsString "OnLoad" c.scriptPath)
      (sizeArgument (methodExistsString "OnLoad" c.scriptPath))).1 = 0) :
    (requests ((DotNetLoader.loadAll b roots st).machine.trace.drop st.trace.length)).count
      ("LOAD||OnLoad||" ++ c.scriptPath) =
        ((candidates roots).map (fun d => d.scriptPath)).count c.scriptPath ∧
    (((candidates roots).map (fun d => d.scriptPath)).Nodup →
      (requests ((DotNetLoader.loadAll b roots st).machine.trace.drop st.trace.length)).count
        ("LOAD||OnLoad||" ++ c.scriptPath) = 1) ∧
    "EXEC||OnLoad||" ++ c.scriptPath ∉
      requests ((DotNetLoader.loadAll b roots st).machine.trace.drop st.trace.length) ∧
    (∀ path : Path, "LOAD||Main||" ++ path ∉
      requests ((DotNetLoader.loadAll b roots st).machine.trace.drop st.trace.length)) ∧
    (∀ path : Path, "EXEC||Main||" ++ path ∉
      requests ((DotNetLoader.loadAll b roots st).machine.trace.drop st.trace.length)) ∧
    (⟨Path.stem c.entryPath, false, .runMain c.scriptPath⟩ : Script) ∈
      (DotNetLoader.loadAll b roots st).machine.loader.scripts ∧
    (∀ (directoryPath : Path) (entry : DirEntry) (st1 : Machine σ),
      st1.loader.m_methodExists = some existsPtr → st1.loader.m_runMethod = some runPtr →
      entry.is_directory = true → entry.children.contains "Main.dll" = true →
      Path.join (Path.join directoryPath entry.filename) "Main.dll" = c.scriptPath →
      requests (DotNetLoader.loadAll.entry b directoryPath entry st1).2.trace =
        requests st1.trace ++
          ["CHECK||Main||" ++ c.scriptPath,
           "CHECK||OnLoad||" ++ c.scriptPath,
           "LOAD||OnLoad||" ++ c.scriptPath]) ∧
    (∀ (st1 : Machine σ) (entryPoint : Ptr), st1.loader.m_runMethod = some entryPoint →
      (RunAction.invoke b st1 (.runMain c.scriptPath)).1 = .returned () ∧
      (RunAction.invoke b st1 (.runMain c.scriptPath)).2.loader = st1.loader ∧
      (RunAction.invoke b st1 (.runMain c.scriptPath)).2.trace =
        st1.trace ++ [Event.entryPoint entryPoint
          ("EXEC||Main||" ++ c.scriptPath)
          (sizeArgument ("EXEC||Main||" ++ c.scriptPath))
          (b.entryPoint entryPoint st1.bridge
            ("EXEC||Main||" ++ c.scriptPath)
            (sizeArgument ("EXEC||Main||" ++ c.scriptPath))).1]) := by
  have hinst := loadAll_installed b existsPtr runPtr roots st hE hR
  have hcount := runCandidates_count b existsPtr runPtr c.scriptPath hOnLoad (candidates roots)
    { st with loader := st.loader.clearScripts }
  obtain ⟨new, hn, hx⟩ := runCandidates_requests b existsPtr runPtr (candidates roots)
    { st with loader := st.loader.clearScripts }
  have hreg := runCandidates_registered b existsPtr runPtr c hMain (candidates roots)
    { st with loader := st.loader.clearScripts } hc
  have hdrop : (DotNetLoader.loadAll b roots st).machine.trace.drop st.trace.length = new := by
    rw [hinst]
    simp only [] at hn ⊢
    rw [hn, List.drop_left]
  have hnum : (requests new).count ("LOAD||OnLoad||" ++ c.scriptPath) =
      ((candidates roots).map (fun d => d.scriptPath)).count c.scriptPath := by
    rw [hn, requests_append, List.count_append] at hcount
    rw [← runMethodString_onLoad]
    simp only [toUTF8String] at hcount
    omega
  rw [hdrop]
  refine ⟨hnum, ?_, ?_, ?_, ?_, ?_, ?_, ?_⟩
  · intro hdistinct
    rw [hnum]
    exact List.count_eq_one_of_mem hdistinct (List.mem_map.2 ⟨c, hc, rfl⟩)
  · intro hmem
    rcases hx _ hmem with ⟨m, q, h⟩ | ⟨q, h⟩ <;>
    · have hd := congrArg String.data h
      simp [methodExistsString, runMethodString, String.data_append] at hd
  · intro path hmem
    rcases hx _ hmem with ⟨m, q, h⟩ | ⟨q, h⟩ <;>
    · have hd := congrArg String.data h
      simp [methodExistsString, runMethodString, String.data_append] at hd
  · intro path hmem
    rcases hx _ hmem with ⟨m, q, h⟩ | ⟨q, h⟩ <;>
    · have hd := congrArg String.data h
      simp [methodExistsString, runMethodString, String.data_append] at hd
  · rw [hinst]
    exact hreg
  · intro directoryPath entry st1 hE1 hR1 hdir hdll hpath
    rw [loadAll_entry_candidate b existsPtr runPtr directoryPath entry st1 hE1 hR1 hdir hdll]
    obtain ⟨main, onLoad, loaded, s, step, _, hO, hd, ht, _⟩ :=
      stepCandidate_spec b existsPtr runPtr
        ⟨Path.join directoryPath entry.filename,
          Path.join (Path.join directoryPath entry.filename) "Main.dll"⟩ st1
    simp only [hpath, toUTF8String] at hO hd ht ⊢
    have h0 : onLoad = 0 := by rw [hO]; exact hOnLoad _
    simp only [ht, hd, h0, if_true, requests_append, requests, runMethodString_onLoad,
      methodExistsString_main, methodExistsString_onLoad]
  · intro st1 entryPoint h1
    rw [← runMethodString_main]
    simp [RunAction.invoke, callRunMethod, h1, runMethodLambda, callEntryPoint, toUTF8String]

/-- C5 (witness): on the example roots, whose candidate paths are distinct, the
script `Foo` gets the request `LOAD||OnLoad||/scripts/custom/dotnet/Foo/Main.dll`
once during `loadAll`, and its runnable descriptor is registered. -/
theorem C5_onLoad_once_main_per_run_witness :
    fooCandidate ∈ candidates exampleRoots ∧
    ((candidates exampleRoots).map (fun d => d.scriptPath)).Nodup ∧
    (requests ((DotNetLoader.loadAll exampleBridge exampleRoots exampleMachine).machine.trace.drop
        exampleMachine.trace.length)).count
      ("LOAD||OnLoad||" ++ fooCandidate.scriptPath) = 1 ∧
    "LOAD||OnLoad||" ++ fooCandidate.scriptPath =
      "LOAD||OnLoad||/scripts/custom/dotnet/Foo/Main.dll" ∧
    (⟨"Foo", false, .runMain "/scripts/custom/dotnet/Foo/Main.dll"⟩ : Script) ∈
      (DotNetLoader.loadAll exampleBridge exampleRoots exampleMachine).machine.loader.scripts :=
  ⟨by decide, by decide,
   (C5_onLoad_once_main_per_run exampleBridge 7000 7000 exampleRoots exampleMachine rfl rfl
      fooCandidate (by decide) (fun _ => rfl) (fun _ => rfl)).2.1 (by decide),
   by decide,
   (C5_onLoad_once_main_per_run exampleBridge 7000 7000 exampleRoots exampleMachine rfl rfl
      fooCandidate (by decide) (fun _ => rfl) (fun _ => rfl)).2.2.2.2.2.1⟩

/-- C5 (counterexample): the script roots `/scripts` and `/scripts/` name the same
directory; its script `Foo` exposes `Main` and `OnLoad` (all four `CHECK` requests
are answered with 0), and one run of `loadAll` sends the request
`LOAD||OnLoad||/scripts/custom/dotnet/Foo/Main.dll` twice. -/
theorem C5_directory_enumerated_twice :
    fooCandidate ∈ candidates twiceListedRoots ∧
    checkAnswers ((DotNetLoader.loadAll exampleBridge twiceListedRoots
        exampleMachine).machine.trace.drop exampleMachine.trace.length) =
      [("CHECK||Main||/scripts/custom/dotnet/Foo/Main.dll", 0),
       ("CHECK||OnLoad||/scripts/custom/dotnet/Foo/Main.dll", 0),
       ("CHECK||Main||/scripts/custom/dotnet/Foo/Main.dll", 0),
       ("CHECK||OnLoad||/scripts/custom/dotnet/Foo/Main.dll", 0)] ∧
    (requests ((DotNetLoader.loadAll exampleBridge twiceListedRoots
        exampleMachine).machine.trace.drop exampleMachine.trace.length)).count
      "LOAD||OnLoad||/scripts/custom/dotnet/Foo/Main.dll" = 2 := by
  decide

/-- C8: with an installed bridge, two calls of `loadAll` in sequence both return
true and make the same `CHECK` requests; the registry after each call is computed
from the candidates and the `CHECK` answers of that call alone, whatever the
registry held before, so when the answers of the second call equal those of the
first, the registry after the second call equals the registry after the first. -/
theorem C8_reload_same_registry {σ : Type} (b : Bridge σ) (existsPtr runPtr : Ptr)
    (roots : List ScriptRoot) (st : Machine σ)
    (hE : st.loader.m_methodExists = some existsPtr)
    (hR : st.loader.m_runMethod = some runPtr) :
    (DotNetLoader.loadAll b roots st).outcome = .returned true ∧
    (DotNetLoader.loadAll b (DotNetLoader.loadAll b roots st).roots
      (DotNetLoader.loadAll b roots st).machine).outcome = .returned true ∧
    (∀ scripts : List Script,
      (DotNetLoader.loadAll b roots
        { st with loader := { st.loader with scripts := scripts } }).machine.loader.scripts =
      (DotNetLoader.loadAll b roots st).machine.loader.scripts) ∧
    (checkAnswers ((DotNetLoader.loadAll b (DotNetLoader.loadAll b roots st).roots
        (DotNetLoader.loadAll b roots st).machine).machine.trace.drop
        (DotNetLoader.loadAll b roots st).machine.trace.length)).map Prod.fst =
      (checkAnswers ((DotNetLoader.loadAll b roots st).machine.trace.drop
        st.trace.length)).map Prod.fst ∧
    (DotNetLoader.loadAll b (DotNetLoader.loadAll b roots st).roots
        (DotNetLoader.loadAll b roots st).machine).machine.loader.scripts =
      expectedRegistry (candidates roots)
        ((checkAnswers ((DotNetLoader.loadAll b (DotNetLoader.loadAll b roots st).roots
          (DotNetLoader.loadAll b roots st).machine).machine.trace.drop
          (DotNetLoader.loadAll b roots st).machine.trace.length)).map Prod.snd) ∧
    (checkAnswers ((DotNetLoader.loadAll b (DotNetLoader.loadAll b roots st).roots
        (DotNetLoader.loadAll b roots st).machine).machine.trace.drop
        (DotNetLoader.loadAll b roots st).machine.trace.length) =
      checkAnswers ((DotNetLoader.loadAll b roots st).machine.trace.drop st.trace.length) →
      (DotNetLoader.loadAll b (DotNetLoader.loadAll b roots st).roots
        (DotNetLoader.loadAll b roots st).machine).machine.loader.scripts =
      (DotNetLoader.loadAll b roots st).machine.loader.scripts) := by
  have h1 := loadAll_summary b existsPtr runPtr roots st hE hR
  have h2 := loadAll_summary b existsPtr runPtr (DotNetLoader.loadAll b roots st).roots
    (DotNetLoader.loadAll b roots st).machine h1.2.2.1 h1.2.2.2.1
  have hcand : candidates (DotNetLoader.loadAll b roots st).roots = candidates roots := by
    rw [h1.2.1, candidates_afterCreate]
  rw [hcand] at h2
  refine ⟨h1.1, h2.1, ?_, ?_, h2.2.2.2.2.2.2, ?_⟩
  · intro scripts
    rfl
  · rw [h2.2.2.2.2.2.1, h1.2.2.2.2.2.1]
  · intro hsame
    rw [h2.2.2.2.2.2.2, h1.2.2.2.2.2.2, hsame]

/-- C8 (witness): on the example roots, with the bridge that counts its calls, the
second `loadAll` gets the same `CHECK` answers and leaves the same registry. -/
theorem C8_reload_same_registry_witness :
    checkAnswers ((DotNetLoader.loadAll exampleBridge
        (DotNetLoader.loadAll exampleBridge exampleRoots exampleMachine).roots
        (DotNetLoader.loadAll exampleBridge exampleRoots exampleMachine).machine).machine.trace.drop
        (DotNetLoader.loadAll exampleBridge exampleRoots exampleMachine).machine.trace.length) =
      checkAnswers ((DotNetLoader.loadAll exampleBridge exampleRoots exampleMachine).machine.trace.drop
        exampleMachine.trace.length) ∧
    (DotNetLoader.loadAll exampleBridge
        (DotNetLoader.loadAll exampleBridge exampleRoots exampleMachine).roots
        (DotNetLoader.loadAll exampleBridge exampleRoots exampleMachine).machine).machine.loader.scripts =
      (DotNetLoader.loadAll exampleBridge exampleRoots exampleMachine).machine.loader.scripts :=
  ⟨by decide,
   (C8_reload_same_registry exampleBridge 7000 7000 exampleRoots exampleMachine rfl
      rfl).2.2.2.2.2 (by decide)⟩

end hex.script.loader
